import Mathlib

/-!
# Verification of the local persistence / favorites / review layer

A shallow embedding of the JavaScript persistence layer of the recipe
application: `src/src/hooks/useLocalStorage.js` (draft, favorites and
review storage), `src/src/services/recipeService.js`
(`normalizeRecipeData`), the review service (`createReview`,
`getReviews`, `updateReview`, `deleteReview`) and the favorite toggle
of `src/src/hooks/useFavorites.js`.

JavaScript values are modelled by the inductive `JVal` (numbers are
modelled as integers, which covers every numeric value the embedded
code produces: `parseInt`, `Date.now()` and integer literals).
`localStorage` is modelled as a map from string keys to stored text;
stored text is represented by its parse result (`StoredVal.doc v` is a
string that `JSON.parse`s to `v`, `StoredVal.rawText c` is text that is
not a JSON document, e.g. the raw ISO timestamps the code writes, or
corrupted content).  A read from the store can also fail
(`GetResult.errored`), modelling an inaccessible storage medium.
Exceptions of the embedded code are modelled with `Except Unit`;
every `try`/`catch` of the source appears as an explicit match.
Environment inputs (`Date.now()`, `new Date().toISOString()`,
`Math.random()`, remote API outcomes) are threaded as parameters.
-/

set_option autoImplicit false

/-- A JavaScript/JSON value.  Numbers are modelled as integers. -/
inductive JVal where
  | undefined
  | null
  | bool (b : Bool)
  | num (n : Int)
  | str (s : String)
  | arr (elems : List JVal)
  | obj (fields : List (String × JVal))

/-- JavaScript truthiness of a value. -/
def jsTruthy : JVal → Bool
  | .undefined => false
  | .null => false
  | .bool b => b
  | .num n => n != 0
  | .str s => s != ""
  | .arr _ => true
  | .obj _ => true

/-- JavaScript `a || b`. -/
def jsOr (a b : JVal) : JVal := if jsTruthy a then a else b

/-- JavaScript strict equality `===`.  Primitive values compare
structurally; objects and arrays compare by reference, and the embedded
code never compares aliased objects, so those comparisons are `false`. -/
def jsStrictEq : JVal → JVal → Bool
  | .undefined, .undefined => true
  | .null, .null => true
  | .bool a, .bool b => a == b
  | .num a, .num b => a == b
  | .str a, .str b => a == b
  | _, _ => false

/-- Lookup of an object field; on duplicate keys the last occurrence
wins, matching `JSON.parse`. -/
def fieldLookup : List (String × JVal) → String → Option JVal
  | [], _ => none
  | (k', v) :: rest, k =>
    match fieldLookup rest k with
    | some w => some w
    | none => if k = k' then some v else none

/-- JavaScript property read `v[k]` for base values on which access
does not throw (`undefined`/`null` bases are handled by `jsGetFieldE`).
Non-object bases yield `undefined` for the (non-index) keys the
embedded code reads. -/
def jsGetD (v : JVal) (k : String) : JVal :=
  match v with
  | .obj kvs => (fieldLookup kvs k).getD .undefined
  | _ => .undefined

/-- JavaScript property read `v.k`, throwing (`.error`) when the base
is `undefined` or `null`. -/
def jsGetFieldE (v : JVal) (k : String) : Except Unit JVal :=
  match v with
  | .undefined => .error ()
  | .null => .error ()
  | v => .ok (jsGetD v k)

/-- In-place replacement of every binding of key `k` by `(k, v)`. -/
def setField : List (String × JVal) → String → JVal → List (String × JVal)
  | [], _, _ => []
  | (k', w) :: rest, k, v =>
    (if k' = k then (k, v) else (k', w)) :: setField rest k v

/-- Update used for object literals `\x7b...base, k: v\x7d`: replaces
the field in place when present (keeping JS key order), otherwise
appends it. -/
def jsObjSet (kvs : List (String × JVal)) (k : String) (v : JVal) :
    List (String × JVal) :=
  if kvs.any (fun p => p.1 = k) then setField kvs k v
  else kvs ++ [(k, v)]

/-- Iterated `jsObjSet`, for object literals with several overrides. -/
def jsObjSetMany (base : List (String × JVal))
    (pairs : List (String × JVal)) : List (String × JVal) :=
  pairs.foldl (fun acc p => jsObjSet acc p.1 p.2) base

/-- Spread `\x7b...v\x7d` of a value into an object literal. -/
def jsSpreadFields : JVal → List (String × JVal)
  | .obj kvs => kvs
  | .arr xs => xs.enum.map (fun p => (toString p.1, p.2))
  | .str s => (s.toList.enum.map (fun p => (toString p.1, JVal.str (String.mk [p.2]))))
  | _ => []

/-! ## `String()` and `parseInt` -/

mutual

/-- JavaScript `String(v)` coercion, as used by `parseInt`. -/
def jsToString : JVal → String
  | .undefined => "undefined"
  | .null => "null"
  | .bool true => "true"
  | .bool false => "false"
  | .num n => toString n
  | .str s => s
  | .arr xs => jsArrToString xs
  | .obj _ => "[object Object]"

/-- Array-to-string: elements joined by commas, `null`/`undefined`
elements becoming empty. -/
def jsArrToString : List JVal → String
  | [] => ""
  | [.undefined] => ""
  | [.null] => ""
  | [x] => jsToString x
  | .undefined :: rest => "," ++ jsArrToString rest
  | .null :: rest => "," ++ jsArrToString rest
  | x :: rest => jsToString x ++ "," ++ jsArrToString rest

end

/-- The ECMAScript whitespace set trimmed by `parseInt`: WhiteSpace
(tab, vertical tab, form feed, space, no-break space, zero-width
no-break space and the Unicode space separators) plus the line
terminators. -/
def jsWhitespaceChar (c : Char) : Bool :=
  c.toNat = 0x09 || c.toNat = 0x0A || c.toNat = 0x0B || c.toNat = 0x0C ||
  c.toNat = 0x0D || c.toNat = 0x20 || c.toNat = 0xA0 || c.toNat = 0x1680 ||
  (0x2000 ≤ c.toNat && c.toNat ≤ 0x200A) || c.toNat = 0x2028 ||
  c.toNat = 0x2029 || c.toNat = 0x202F || c.toNat = 0x205F ||
  c.toNat = 0x3000 || c.toNat = 0xFEFF

/-- Value of a decimal digit (`parseInt` accepts only ASCII digits in
radix 10). -/
def decDigitVal (c : Char) : Option Nat :=
  if c.isDigit then some (c.toNat - 48) else none

/-- Value of a hexadecimal digit. -/
def hexDigitVal (c : Char) : Option Nat :=
  if c.isDigit then some (c.toNat - 48)
  else if 'a' ≤ c && c ≤ 'f' then some (c.toNat - 87)
  else if 'A' ≤ c && c ≤ 'F' then some (c.toNat - 55)
  else none

/-- Accumulate the longest leading run of digits of the given radix;
`none` when no digit was read. -/
def parseDigitsIn (radix : Nat) (digitVal : Char → Option Nat) :
    List Char → Option Nat → Option Nat
  | [], acc => acc
  | c :: rest, acc =>
    match digitVal c with
    | some d => parseDigitsIn radix digitVal rest (some ((acc.getD 0) * radix + d))
    | none => acc

/-- `parseInt` on a string, per ECMAScript with no radix argument:
leading whitespace (the full JS set) is trimmed, an optional sign is
read, a `0x`/`0X` prefix selects radix 16 (radix 10 otherwise), then
the longest digit run in that radix; `none` models `NaN`. -/
def parseIntStr (s : String) : Option Int :=
  let cs := s.toList.dropWhile jsWhitespaceChar
  let signed : Int × List Char :=
    match cs with
    | '-' :: rest => (-1, rest)
    | '+' :: rest => (1, rest)
    | _ => (1, cs)
  let mag : Option Nat :=
    match signed.2 with
    | '0' :: 'x' :: rest => parseDigitsIn 16 hexDigitVal rest none
    | '0' :: 'X' :: rest => parseDigitsIn 16 hexDigitVal rest none
    | cs2 => parseDigitsIn 10 decDigitVal cs2 none
  mag.map (fun n => signed.1 * n)

/-- JavaScript `parseInt(v)`: stringify, then parse. -/
def jsParseInt (v : JVal) : Option Int := parseIntStr (jsToString v)

/-- JavaScript `parseFloat(v)`.  The model's number type is `Int`, on
which `parseFloat` coincides with decimal `parseInt`; fractional parse
results are outside the model. -/
def jsParseFloat (v : JVal) : Option Int := jsParseInt v

/-! ## The `localStorage` model -/

/-- The text stored under a key, represented by its parse behaviour:
`doc v` is text that `JSON.parse`s to `v`; `rawText c` is text that is
not a JSON document (the raw ISO timestamps written by the code, or
undecodable/corrupted content). -/
inductive StoredVal where
  | doc (v : JVal)
  | rawText (c : String)

/-- Result of `localStorage.getItem`: a stored value, `missing`
(JS `null`), or a thrown storage-access error. -/
inductive GetResult where
  | found (sv : StoredVal)
  | missing
  | errored

/-- The storage medium: a map from keys to read results. -/
def Store := String → GetResult

/-- `localStorage.setItem`. -/
def setItem (s : Store) (k : String) (sv : StoredVal) : Store :=
  fun k' => if k' = k then .found sv else s k'

/-- A store with no keys set. -/
def emptyStore : Store := fun _ => .missing

/-- `JSON.parse` on stored text; `none` models the thrown exception. -/
def jsonParse : StoredVal → Option JVal
  | .doc v => some v
  | .rawText _ => none

/-- `JSON.parse(localStorage.getItem(k) || "[]")`, with `.error`
modelling a thrown exception (storage access failure or undecodable
content). -/
def parseKeyOrEmptyList (s : Store) (k : String) : Except Unit JVal :=
  match s k with
  | .errored => .error ()
  | .missing => .ok (.arr [])
  | .found sv =>
    match jsonParse sv with
    | some v => .ok v
    | none => .error ()

/-! ## Exception-aware array iteration (`findIndex`, `some`, `filter`) -/

/-- `Array.prototype.findIndex` with a predicate that can throw;
short-circuits at the first match. -/
def jsFindIdxE (p : JVal → Except Unit Bool) : List JVal → Except Unit (Option Nat)
  | [] => .ok none
  | x :: rest => do
    if (← p x) then pure (some 0)
    else (jsFindIdxE p rest).map (fun r => r.map (fun i => i + 1))

/-- `Array.prototype.some` with a predicate that can throw;
short-circuits at the first match. -/
def jsAnyE (p : JVal → Except Unit Bool) : List JVal → Except Unit Bool
  | [] => .ok false
  | x :: rest => do
    if (← p x) then pure true else jsAnyE p rest

/-- `Array.prototype.filter` with a predicate that can throw. -/
def jsFilterE (p : JVal → Except Unit Bool) : List JVal → Except Unit (List JVal)
  | [] => .ok []
  | x :: rest => do
    let b ← p x
    let r ← jsFilterE p rest
    pure (if b then x :: r else r)

/-! ## Key constants (`draftStorage` / `useLocalStorage.js`) -/

/-- `DRAFT_KEY_PREFIX` in the source. -/
def draftKeyBase : String := "recipe_draft_"

/-- `DRAFT_TIMESTAMP_KEY` in the source. -/
def DRAFT_TIMESTAMP_KEY : String := "recipe_draft_timestamp"

/-- `USER_PROFILE_KEY` in the source. -/
def USER_PROFILE_KEY : String := "user_profile"

/-- `REVIEWS_KEY` in the source. -/
def REVIEWS_KEY : String := "recipe_reviews"

/-- `FAVORITES_KEY` in the source. -/
def FAVORITES_KEY : String := "user_favorites"

/-- The storage key for a draft id, shared by `saveDraft`, `loadDraft`,
`deleteDraft` and `hasDraft`. -/
def draftKey (draftId : String) : String :=
  if draftId = "user_profile" then USER_PROFILE_KEY
  else if draftId = FAVORITES_KEY then FAVORITES_KEY
  else draftKeyBase ++ draftId

/-! ## Draft storage -/

/-- `saveDraft(draftData, draftId)`; `ts` is `new Date().toISOString()`.
The draft is stored with a `savedAt` field added, and (for
non-singleton keys) a companion raw timestamp record is written. -/
def saveDraft (draftData : JVal) (draftId : String) (ts : String)
    (s : Store) : Bool × Store :=
  let key := draftKey draftId
  let draft := JVal.obj (jsObjSet (jsSpreadFields draftData) "savedAt" (.str ts))
  let s1 := setItem s key (.doc draft)
  let s2 :=
    if draftId ≠ "user_profile" ∧ draftId ≠ FAVORITES_KEY then
      setItem s1 (key ++ "_" ++ DRAFT_TIMESTAMP_KEY) (.rawText ts)
    else s1
  (true, s2)

/-- `loadDraft(draftId)`: `null` when the key is missing, the content
undecodable, or storage access throws. -/
def loadDraft (draftId : String) (s : Store) : Option JVal :=
  match s (draftKey draftId) with
  | .errored => none
  | .missing => none
  | .found sv =>
    match jsonParse sv with
    | some v => some v
    | none => none

/-! ## Review storage (`useLocalStorage.js`) -/

/-- `loadUserReviews(userIdentifier)`: the stored reviews filtered by
`user_identifier`, or `[]` on any failure. -/
def loadUserReviews (userIdentifier : JVal) (s : Store) : JVal :=
  match parseKeyOrEmptyList s REVIEWS_KEY with
  | .error _ => .arr []
  | .ok reviews =>
    match reviews with
    | .arr l =>
      match jsFilterE (fun r => do
          pure (jsStrictEq (← jsGetFieldE r "user_identifier") userIdentifier)) l with
      | .ok l' => .arr l'
      | .error _ => .arr []
    | _ => .arr []

/-! ## Favorites storage -/

/-- `loadFavorites()`: the favorites sequence, tolerating the legacy
object shape (an object with an `items` field, read with optional
chaining) and returning `[]` on any failure. -/
def loadFavorites (s : Store) : JVal :=
  match parseKeyOrEmptyList s FAVORITES_KEY with
  | .error _ => .arr []
  | .ok favoritesData =>
    match favoritesData with
    | .arr xs => .arr xs
    | v => jsOr (jsGetD v "items") (.arr [])

/-- The `favoriteRecipe` snapshot literal built by `addToFavorites`;
`now` is `Date.now()` and `ts` is `new Date().toISOString()`. -/
def mkFavEntry (recipe : JVal) (now : Int) (ts : String) : JVal :=
  .obj [("id", jsOr (jsGetD recipe "id") (.num now)),
        ("name", jsOr (jsGetD recipe "name") (.str "Unnamed Recipe")),
        ("description", jsOr (jsGetD recipe "description") (.str "")),
        ("image_url", jsOr (jsGetD recipe "image_url") (.str "")),
        ("category", jsOr (jsGetD recipe "category") (.str "makanan")),
        ("prep_time", jsOr (jsGetD recipe "prep_time")
          (jsOr (jsGetD recipe "cook_time") (.str "15"))),
        ("cook_time", jsOr (jsGetD recipe "cook_time") (.str "15")),
        ("difficulty", jsOr (jsGetD recipe "difficulty") (.str "mudah")),
        ("average_rating", jsOr (jsGetD recipe "average_rating") (.num 0)),
        ("servings", jsOr (jsGetD recipe "servings") (.num 4)),
        ("ingredients", jsOr (jsGetD recipe "ingredients") (.arr [])),
        ("steps", jsOr (jsGetD recipe "steps") (.arr [])),
        ("added_at", .str ts)]

/-- Body of `addToFavorites` before its `catch`. -/
def addToFavoritesE (recipe : JVal) (now : Int) (ts : String)
    (s : Store) : Except Unit (Bool × Store) := do
  let favorites := loadFavorites s
  let rid ← jsGetFieldE recipe "id"
  let favoriteRecipe := mkFavEntry recipe now ts
  match favorites with
  | .arr favs => do
    let idx ← jsFindIdxE (fun fav => do
        pure (jsStrictEq (← jsGetFieldE fav "id") rid)) favs
    match idx with
    | none =>
      pure (true, setItem s FAVORITES_KEY (.doc (.arr (favs ++ [favoriteRecipe]))))
    | some _ => pure (false, s)
  | _ => .error ()

/-- `addToFavorites(recipe)`: any thrown exception is caught and
converted to `false` with the store untouched. -/
def addToFavorites (recipe : JVal) (now : Int) (ts : String)
    (s : Store) : Bool × Store :=
  match addToFavoritesE recipe now ts s with
  | .ok r => r
  | .error _ => (false, s)

/-- `removeFromFavorites(recipeId)`. -/
def removeFromFavorites (recipeId : JVal) (s : Store) : Bool × Store :=
  match loadFavorites s with
  | .arr favs =>
    match jsFilterE (fun fav => do
        pure (!jsStrictEq (← jsGetFieldE fav "id") recipeId)) favs with
    | .ok updated => (true, setItem s FAVORITES_KEY (.doc (.arr updated)))
    | .error _ => (false, s)
  | _ => (false, s)

/-- `isRecipeFavorited(recipeId)`. -/
def isRecipeFavorited (recipeId : JVal) (s : Store) : Bool :=
  match loadFavorites s with
  | .arr favs =>
    match jsAnyE (fun fav => do
        pure (jsStrictEq (← jsGetFieldE fav "id") recipeId)) favs with
    | .ok b => b
    | .error _ => false
  | _ => false

/-! ## Review service -/

/-- Outcome of a remote API call through the `apiClient` facade: the
resolved response value, or a rejection carrying the error value. -/
inductive ApiOutcome where
  | ok (resp : JVal)
  | fail (err : JVal)

/-- The `newReview` literal built by `saveReviewToStorage`. -/
def mkReview (recipeId reviewData : JVal) (now : Int) (ts : String) : JVal :=
  .obj [("id", .str (toString now)),
        ("recipe_id", recipeId),
        ("recipe_name", jsGetD reviewData "recipe_name"),
        ("category", jsGetD reviewData "category"),
        ("user_identifier", jsGetD reviewData "user_identifier"),
        ("rating", jsGetD reviewData "rating"),
        ("comment", jsOr (jsGetD reviewData "comment") (.str "")),
        ("created_at", .str ts)]

/-- `saveReviewToStorage(recipeId, reviewData)`: appends the new review
to the stored collection; on any failure (undecodable storage, a
non-array collection, or a throwing property access) returns `null`
with the store untouched. -/
def saveReviewToStorage (recipeId reviewData : JVal) (now : Int)
    (ts : String) (s : Store) : Option JVal × Store :=
  match parseKeyOrEmptyList s REVIEWS_KEY with
  | .error _ => (none, s)
  | .ok allReviews =>
    match jsGetFieldE reviewData "recipe_name" with
    | .error _ => (none, s)
    | .ok _ =>
      let newReview := mkReview recipeId reviewData now ts
      match allReviews with
      | .arr l =>
        (some newReview, setItem s REVIEWS_KEY (.doc (.arr (l ++ [newReview]))))
      | _ => (none, s)

/-- `getReviewsFromStorage(recipeId)`. -/
def getReviewsFromStorage (recipeId : JVal) (s : Store) : JVal :=
  match parseKeyOrEmptyList s REVIEWS_KEY with
  | .error _ => .arr []
  | .ok allReviews =>
    match allReviews with
    | .arr l =>
      match jsFilterE (fun r => do
          pure (jsStrictEq (← jsGetFieldE r "recipe_id") recipeId)) l with
      | .ok l' => .arr l'
      | .error _ => .arr []
    | _ => .arr []

/-- `getReviews(recipeId)`: the remote response, or on remote failure a
success envelope built from local storage. -/
def getReviews (remote : ApiOutcome) (recipeId : JVal) (s : Store) : JVal :=
  match remote with
  | .ok resp => resp
  | .fail _ =>
    .obj [("success", .bool true), ("data", getReviewsFromStorage recipeId s)]

/-- `createReview(recipeId, reviewData)`.  On a resolved remote call a
local copy is saved when `response.success || response.data` is truthy;
a thrown property access on the response falls into the `catch`, which
(like a rejected remote call) saves the local copy and returns the
offline success envelope. -/
def createReview (remote : ApiOutcome) (recipeId reviewData : JVal)
    (now : Int) (ts : String) (s : Store) : JVal × Store :=
  match remote with
  | .ok resp =>
    match jsGetFieldE resp "success" with
    | .error _ =>
      let s' := (saveReviewToStorage recipeId reviewData now ts s).2
      (.obj [("success", .bool true), ("data", reviewData),
             ("offline", .bool true)], s')
    | .ok sv =>
      if jsTruthy sv || jsTruthy (jsGetD resp "data") then
        (resp, (saveReviewToStorage recipeId reviewData now ts s).2)
      else
        (resp, s)
  | .fail _ =>
    let s' := (saveReviewToStorage recipeId reviewData now ts s).2
    (.obj [("success", .bool true), ("data", reviewData),
           ("offline", .bool true)], s')

/-- `updateReview(reviewId, reviewData)`: remote only; a rejected call
is rethrown unchanged and the store is never touched. -/
def updateReview (remote : ApiOutcome) (_reviewId _reviewData : JVal)
    (s : Store) : Except JVal JVal × Store :=
  match remote with
  | .ok resp => (.ok resp, s)
  | .fail e => (.error e, s)

/-- `deleteReview(reviewId)`: remote only; a rejected call is rethrown
unchanged and the store is never touched. -/
def deleteReview (remote : ApiOutcome) (_reviewId : JVal)
    (s : Store) : Except JVal JVal × Store :=
  match remote with
  | .ok resp => (.ok resp, s)
  | .fail e => (.error e, s)

/-! ## Recipe normalization (`recipeService.js`) -/

/-- One element of the normalized `ingredients` array; `freshI i` is
the interpolated `Date.now()`-`Math.random()` part of the fallback id
generated for index `i`. -/
def normIngredient (freshI : Nat → String) (i : Nat) (ing : JVal) :
    Except Unit JVal := do
  let iid ← jsGetFieldE ing "id"
  pure (.obj [("id", jsOr iid (.str ("ingredient-" ++ freshI i))),
              ("name", jsOr (jsGetD ing "name") (.str "")),
              ("quantity", jsOr (jsGetD ing "quantity") (.str ""))])

/-- One element of the normalized `steps` array; the default
`step_number` is `index + 1`. -/
def normStep (freshS : Nat → String) (i : Nat) (st : JVal) :
    Except Unit JVal := do
  let sid ← jsGetFieldE st "id"
  pure (.obj [("id", jsOr sid (.str ("step-" ++ freshS i))),
              ("step_number", jsOr (jsGetD st "step_number") (.num (Int.ofNat i + 1))),
              ("instruction", jsOr (jsGetD st "instruction") (.str ""))])

/-- `Array.prototype.map` with element index and a body that can
throw. -/
def mapIdxE (f : Nat → JVal → Except Unit JVal) :
    Nat → List JVal → Except Unit (List JVal)
  | _, [] => .ok []
  | i, x :: rest => do
    let y ← f i x
    let r ← mapIdxE f (i + 1) rest
    pure (y :: r)

/-- The normalized `ingredients` field: the mapped array when the
input field is an array (`Array.isArray`), else `[]`. -/
def normIngredientsField (freshI : Nat → String) (recipe : JVal) :
    Except Unit JVal :=
  match jsGetD recipe "ingredients" with
  | .arr xs => (mapIdxE (normIngredient freshI) 0 xs).map JVal.arr
  | _ => .ok (.arr [])

/-- The normalized `steps` field: the mapped array when the input
field is an array, else `[]`. -/
def normStepsField (freshS : Nat → String) (recipe : JVal) :
    Except Unit JVal :=
  match jsGetD recipe "steps" with
  | .arr xs => (mapIdxE (normStep freshS) 0 xs).map JVal.arr
  | _ => .ok (.arr [])

/-- `normalizeRecipeData(recipe)` of `recipeService.js`.  `freshI` and
`freshS` supply the random parts of generated ingredient/step ids.  A
falsy recipe is returned unchanged; otherwise the result is the spread
of `recipe` with the listed fields overridden. -/
def normalizeRecipeData (freshI freshS : Nat → String) (recipe : JVal) :
    Except Unit JVal :=
  if jsTruthy recipe = false then .ok recipe
  else
    (normIngredientsField freshI recipe) >>= fun ingredients =>
    (normStepsField freshS recipe) >>= fun steps =>
    .ok (.obj (jsObjSetMany (jsSpreadFields recipe)
      [("ingredients", ingredients),
       ("steps", steps),
       ("image_url", jsOr (jsGetD recipe "image_url")
         (jsOr (jsGetD recipe "image") (.str ""))),
       ("prep_time", .num ((jsParseInt (jsGetD recipe "prep_time")).getD 0)),
       ("cook_time", .num ((jsParseInt (jsGetD recipe "cook_time")).getD 0)),
       ("servings",
         .num (if (jsParseInt (jsGetD recipe "servings")).getD 0 = 0 then 1
               else (jsParseInt (jsGetD recipe "servings")).getD 0)),
       ("average_rating", .num ((jsParseFloat (jsGetD recipe "average_rating")).getD 0)),
       ("review_count", .num ((jsParseInt (jsGetD recipe "review_count")).getD 0)),
       ("name", jsOr (jsGetD recipe "name") (.str "Untitled Recipe")),
       ("description", jsOr (jsGetD recipe "description") (.str "")),
       ("category", jsOr (jsGetD recipe "category") (.str "makanan")),
       ("difficulty", jsOr (jsGetD recipe "difficulty") (.str "mudah"))]))

/-! ## Favorite toggling (`useFavorites.js`) -/

/-- The read phase of `toggleFavorite`:
`isFavorited = isRecipeFavorited(recipe.id)`. -/
def toggleReadPhase (recipe : JVal) (s : Store) : Except Unit Bool :=
  (jsGetFieldE recipe "id").map (fun rid => isRecipeFavorited rid s)

/-- The write phase of `toggleFavorite`: remove when the read observed
the recipe as favorited, add otherwise. -/
def toggleWritePhase (recipe : JVal) (wasFavorited : Bool) (now : Int)
    (ts : String) (s : Store) : Store :=
  if wasFavorited then (removeFromFavorites (jsGetD recipe "id") s).2
  else (addToFavorites recipe now ts s).2

/-- The full (uninterleaved) `toggleFavorite(recipe)`: `some true` when
the recipe was added, `some false` when removed, `none` on a thrown
error (the hook returns `null`). -/
def toggleFavorite (recipe : JVal) (now : Int) (ts : String)
    (s : Store) : Option Bool × Store :=
  match toggleReadPhase recipe s with
  | .error _ => (none, s)
  | .ok b => (some (!b), toggleWritePhase recipe b now ts s)

/-- An atomic step of one of two racing `toggleFavorite` invocations:
its read phase or its write phase. -/
inductive TAct where
  | read1
  | write1
  | read2
  | write2

/-- Race state: the store plus each invocation's recorded read result
(`none` until its read phase ran, or when the read threw). -/
def raceStep (r1 r2 : JVal) (n1 n2 : Int) (t1 t2 : String)
    (st : Store × Option Bool × Option Bool) (a : TAct) :
    Store × Option Bool × Option Bool :=
  match a, st with
  | .read1, (s, _, b2) => (s, (toggleReadPhase r1 s).toOption, b2)
  | .read2, (s, b1, _) => (s, b1, (toggleReadPhase r2 s).toOption)
  | .write1, (s, b1, b2) =>
    (match b1 with
     | some b => toggleWritePhase r1 b n1 t1 s
     | none => s, b1, b2)
  | .write2, (s, b1, b2) =>
    (match b2 with
     | some b => toggleWritePhase r2 b n2 t2 s
     | none => s, b1, b2)

/-- Execution of an interleaving of the phases of two racing
`toggleFavorite` invocations. -/
def raceExec (r1 r2 : JVal) (n1 n2 : Int) (t1 t2 : String)
    (acts : List TAct) (st : Store × Option Bool × Option Bool) :
    Store × Option Bool × Option Bool :=
  acts.foldl (raceStep r1 r2 n1 n2 t1 t2) st

/-! ## Derived definitions used by the verification -/

/-- Primitive (non-reference) values, on which `===` is structural. -/
def isPrimB : JVal → Bool
  | .arr _ => false
  | .obj _ => false
  | _ => true

/-- Object values. -/
def isObjB : JVal → Bool
  | .obj _ => true
  | _ => false

/-- The `id` field of a stored favorite entry. -/
def entryId (f : JVal) : JVal := jsGetD f "id"

/-- A well-formed favorite entry: an object whose `id` field is a
truthy primitive (every entry `addToFavorites` writes is of this
shape). -/
def goodEntryB (f : JVal) : Bool :=
  isObjB f && isPrimB (entryId f) && jsTruthy (entryId f)

mutual

/-- A value is JSON-serializable without loss: it contains no
`undefined` (the formal counterpart of the claim's
"JSON-serializable", under which `JSON.parse(JSON.stringify(v))` is
`v` itself and the store model's `doc` representation is exact). -/
def jsonClean : JVal → Bool
  | .undefined => false
  | .arr xs => jsonCleanList xs
  | .obj kvs => jsonCleanFields kvs
  | _ => true

/-- `jsonClean` on array elements. -/
def jsonCleanList : List JVal → Bool
  | [] => true
  | v :: rest => jsonClean v && jsonCleanList rest

/-- `jsonClean` on object fields. -/
def jsonCleanFields : List (String × JVal) → Bool
  | [] => true
  | (_, v) :: rest => jsonClean v && jsonCleanFields rest

end

/-- An operation of the favorites reconciler, with its environment
inputs (`Date.now()` and the ISO timestamp). -/
inductive FavOp where
  | add (recipe : JVal) (now : Int) (ts : String)
  | remove (recipeId : JVal)

/-- Apply one favorites operation to the store. -/
def applyFavOp (s : Store) : FavOp → Store
  | .add r n t => (addToFavorites r n t s).2
  | .remove rid => (removeFromFavorites rid s).2

/-- Apply a sequence of favorites operations to the store. -/
def applyFavOps (s : Store) (ops : List FavOp) : Store :=
  ops.foldl applyFavOp s

/-- Operations whose added recipes are objects carrying a truthy
primitive identifier (removals are unrestricted). -/
def favOpOkB : FavOp → Bool
  | .add r _ _ => isObjB r && isPrimB (jsGetD r "id") && jsTruthy (jsGetD r "id")
  | .remove _ => true

/-- The favorites set invariant: the store's favorites load as a
sequence of well-formed entries with pairwise distinct identifiers. -/
def FavSetInv (s : Store) : Prop :=
  ∃ favs : List JVal, loadFavorites s = .arr favs ∧
    favs.all goodEntryB = true ∧
    (favs.map entryId).Nodup

/-! ## Helper lemmas: object field lookup -/

theorem fieldLookup_append (l1 l2 : List (String × JVal)) (k : String) :
    fieldLookup (l1 ++ l2) k =
      match fieldLookup l2 k with
      | some w => some w
      | none => fieldLookup l1 k := by
  induction l1 with
  | nil => cases h : fieldLookup l2 k <;> simp [fieldLookup, h]
  | cons p rest ih =>
    obtain ⟨k', v⟩ := p
    simp only [List.cons_append, fieldLookup, List.append_eq]
    rw [ih]
    cases h : fieldLookup l2 k <;> cases h' : fieldLookup rest k <;> simp

theorem fieldLookup_append_last (kvs : List (String × JVal)) (k : String)
    (v : JVal) : fieldLookup (kvs ++ [(k, v)]) k = some v := by
  rw [fieldLookup_append]
  simp [fieldLookup]

theorem fieldLookup_setField (l : List (String × JVal)) (k : String)
    (v : JVal) :
    fieldLookup (setField l k v) k =
      if l.any (fun p => p.1 = k) then some v else none := by
  induction l with
  | nil => simp [setField, fieldLookup]
  | cons p rest ih =>
    obtain ⟨k', w⟩ := p
    simp only [setField]
    by_cases hk : k' = k
    · rw [if_pos hk]
      simp only [fieldLookup]
      rw [ih]
      subst hk
      by_cases hr : rest.any (fun p => p.1 = k') = true <;> simp [hr]
    · rw [if_neg hk]
      simp only [fieldLookup]
      rw [ih]
      by_cases hr : rest.any (fun p => p.1 = k) = true <;>
        simp [hr, hk, Ne.symm hk]

theorem fieldLookup_setField_other (l : List (String × JVal))
    (k k' : String) (v : JVal) (h : k ≠ k') :
    fieldLookup (setField l k' v) k = fieldLookup l k := by
  induction l with
  | nil => simp [setField]
  | cons p rest ih =>
    obtain ⟨k0, w⟩ := p
    simp only [setField]
    by_cases hk0 : k0 = k'
    · rw [if_pos hk0]
      simp only [fieldLookup]
      rw [ih]
      cases fieldLookup rest k <;> simp [h, hk0 ▸ h]
    · rw [if_neg hk0]
      simp only [fieldLookup]
      rw [ih]

theorem fieldLookup_jsObjSet_self (kvs : List (String × JVal)) (k : String)
    (v : JVal) : fieldLookup (jsObjSet kvs k v) k = some v := by
  unfold jsObjSet
  split
  · rename_i hany
    rw [fieldLookup_setField, if_pos hany]
  · exact fieldLookup_append_last kvs k v

theorem fieldLookup_jsObjSet_other (kvs : List (String × JVal))
    (k k' : String) (v : JVal) (h : k ≠ k') :
    fieldLookup (jsObjSet kvs k' v) k = fieldLookup kvs k := by
  unfold jsObjSet
  split
  · exact fieldLookup_setField_other kvs k k' v h
  · rw [fieldLookup_append]
    simp [fieldLookup, h]

/-! ## Helper lemmas: strict equality and iteration -/

theorem jsStrictEq_true_iff (a b : JVal) (ha : isPrimB a = true) :
    jsStrictEq a b = true ↔ a = b := by
  cases a <;> cases b <;> simp_all [jsStrictEq, isPrimB]

theorem jsStrictEq_self (a : JVal) (ha : isPrimB a = true) :
    jsStrictEq a a = true := (jsStrictEq_true_iff a a ha).mpr rfl

theorem jsGetFieldE_eq_ok (v : JVal) (h0 : v ≠ .null) (h1 : v ≠ .undefined)
    (k : String) : jsGetFieldE v k = .ok (jsGetD v k) := by
  cases v <;> simp_all [jsGetFieldE]

theorem jsAnyE_ok (p : JVal → Except Unit Bool) (g : JVal → Bool)
    (l : List JVal) (h : ∀ x ∈ l, p x = .ok (g x)) :
    jsAnyE p l = .ok (l.any g) := by
  induction l with
  | nil => rfl
  | cons x rest ih =>
    have ih' := ih (fun y hy => h y (List.mem_cons_of_mem _ hy))
    have hx := h x (List.mem_cons_self _ _)
    simp only [jsAnyE, hx, List.any_cons]
    cases hg : g x
    · simp only [Bool.false_or]
      exact ih'
    · rfl

theorem jsFindIdxE_ok_none (p : JVal → Except Unit Bool) (g : JVal → Bool)
    (l : List JVal) (h : ∀ x ∈ l, p x = .ok (g x))
    (hall : ∀ x ∈ l, g x = false) :
    jsFindIdxE p l = .ok none := by
  induction l with
  | nil => rfl
  | cons x rest ih =>
    have ih' := ih (fun y hy => h y (List.mem_cons_of_mem _ hy))
      (fun y hy => hall y (List.mem_cons_of_mem _ hy))
    have hx := h x (List.mem_cons_self _ _)
    have hgx := hall x (List.mem_cons_self _ _)
    simp only [jsFindIdxE, hx, hgx]
    show Except.map (fun r => r.map (fun i => i + 1)) (jsFindIdxE p rest)
      = Except.ok none
    rw [ih']
    rfl

theorem jsFindIdxE_ok_found (p : JVal → Except Unit Bool) (g : JVal → Bool)
    (l : List JVal) (h : ∀ x ∈ l, p x = .ok (g x))
    (hsome : ∃ x ∈ l, g x = true) :
    ∃ i, jsFindIdxE p l = .ok (some i) := by
  induction l with
  | nil => simp at hsome
  | cons x rest ih =>
    have hx := h x (List.mem_cons_self _ _)
    cases hgx : g x
    · obtain ⟨y, hy, hgy⟩ := hsome
      rcases List.mem_cons.mp hy with rfl | hy'
      · rw [hgx] at hgy; cases hgy
      · obtain ⟨i, hi⟩ := ih (fun z hz => h z (List.mem_cons_of_mem _ hz))
          ⟨y, hy', hgy⟩
        refine ⟨i + 1, ?_⟩
        simp only [jsFindIdxE, hx, hgx]
        show Except.map (fun r => r.map (fun i => i + 1)) (jsFindIdxE p rest)
          = Except.ok (some (i + 1))
        rw [hi]
        rfl
    · refine ⟨0, ?_⟩
      simp only [jsFindIdxE, hx, hgx]
      rfl

theorem jsFilterE_ok (p : JVal → Except Unit Bool) (g : JVal → Bool)
    (l : List JVal) (h : ∀ x ∈ l, p x = .ok (g x)) :
    jsFilterE p l = .ok (l.filter g) := by
  induction l with
  | nil => rfl
  | cons x rest ih =>
    have ih' := ih (fun y hy => h y (List.mem_cons_of_mem _ hy))
    have hx := h x (List.mem_cons_self _ _)
    simp only [jsFilterE, hx, List.filter_cons]
    cases hgx : g x
    · show (do
        let r ← jsFilterE p rest
        pure (if false = true then x :: r else r) : Except Unit (List JVal))
          = Except.ok (if false = true then x :: rest.filter g else rest.filter g)
      rw [ih']
      rfl
    · show (do
        let r ← jsFilterE p rest
        pure (if true = true then x :: r else r) : Except Unit (List JVal))
          = Except.ok (if true = true then x :: rest.filter g else rest.filter g)
      rw [ih']
      rfl

/-! ## Helper lemmas: the store -/

theorem setItem_self (s : Store) (k : String) (sv : StoredVal) :
    setItem s k sv k = .found sv := by simp [setItem]

theorem setItem_other (s : Store) (k k' : String) (sv : StoredVal)
    (h : k' ≠ k) : setItem s k sv k' = s k' := by simp [setItem, h]

theorem loadFavorites_found_arr (s : Store) (l : List JVal)
    (h : s FAVORITES_KEY = .found (.doc (.arr l))) :
    loadFavorites s = .arr l := by
  simp [loadFavorites, parseKeyOrEmptyList, h, jsonParse]

theorem loadFavorites_missing (s : Store)
    (h : s FAVORITES_KEY = .missing) : loadFavorites s = .arr [] := by
  simp [loadFavorites, parseKeyOrEmptyList, h]

/-- The companion timestamp key written by `saveDraft` never collides
with the draft key itself. -/
theorem draftKey_ne_timestampKey (a : String) :
    a ≠ a ++ "_" ++ DRAFT_TIMESTAMP_KEY := by
  intro h
  have hlen := congrArg String.length h
  rw [String.length_append, String.length_append] at hlen
  have h1 : ("_" : String).length = 1 := rfl
  have h2 : DRAFT_TIMESTAMP_KEY.length = 22 := rfl
  omega

/-- After `saveDraft`, the draft key holds the spread draft document
with `savedAt` set. -/
theorem saveDraft_store_at_key (draftData : JVal) (draftId ts : String)
    (s : Store) :
    (saveDraft draftData draftId ts s).2 (draftKey draftId) =
      .found (.doc (.obj (jsObjSet (jsSpreadFields draftData) "savedAt"
        (.str ts)))) := by
  unfold saveDraft
  dsimp only
  split
  · rw [setItem_other _ _ _ _ (draftKey_ne_timestampKey _), setItem_self]
  · rw [setItem_self]

/-- C2, counterexample.  The claim "saveDraft(v, key) followed by
loadDraft(key) returns a value deep-equal to v" fails at the
JSON-serializable draft `\x7b\x7d` (the empty object) and key `create`:
the loaded value carries the `savedAt` timestamp field that `saveDraft`
injects, so it is not deep-equal to the saved value. -/
theorem C2_counterexample_savedAt :
    loadDraft "create"
      (saveDraft (JVal.obj []) "create" "2024-01-01T00:00:00.000Z" emptyStore).2
      = some (JVal.obj [("savedAt", JVal.str "2024-01-01T00:00:00.000Z")]) ∧
    JVal.obj [("savedAt", JVal.str "2024-01-01T00:00:00.000Z")] ≠ JVal.obj [] := by
  constructor
  · rfl
  · simp

/-- C2, amended.  For every defined draft key and every
JSON-serializable object draft `v`, `saveDraft(v, key)` followed by
`loadDraft(key)` returns `v` with the field `savedAt` set to the save
timestamp — deep-equal to `v` on every field other than `savedAt`. -/
theorem C2_saveDraft_loadDraft_roundtrip (draftId ts : String) (s : Store)
    (kvs : List (String × JVal)) (_hclean : jsonCleanFields kvs = true) :
    loadDraft draftId (saveDraft (.obj kvs) draftId ts s).2
      = some (.obj (jsObjSet kvs "savedAt" (.str ts))) ∧
    (∀ k, k ≠ "savedAt" →
      fieldLookup (jsObjSet kvs "savedAt" (.str ts)) k = fieldLookup kvs k) := by
  constructor
  · unfold loadDraft
    rw [saveDraft_store_at_key]
    rfl
  · intro k hk
    exact fieldLookup_jsObjSet_other kvs k "savedAt" (.str ts) hk

/-- C2 witness: the amended round-trip at a concrete draft. -/
theorem C2_saveDraft_loadDraft_roundtrip_witness :
    jsonCleanFields [("title", JVal.str "Soto")] = true ∧
    loadDraft "create"
      (saveDraft (.obj [("title", JVal.str "Soto")]) "create" "T0" emptyStore).2
      = some (.obj [("title", JVal.str "Soto"), ("savedAt", JVal.str "T0")]) :=
  ⟨rfl, (C2_saveDraft_loadDraft_roundtrip "create" "T0" emptyStore
    [("title", JVal.str "Soto")] rfl).1⟩

/-- C6.  Store reads never raise: for every key, undecodable stored
content or a throwing storage access makes `loadDraft` return `null`
and makes `loadFavorites` / `loadUserReviews` return the empty
sequence. -/
theorem C6_load_failures_return_defaults :
    (∀ (draftId : String) (s : Store) (c : String),
      s (draftKey draftId) = .found (.rawText c) → loadDraft draftId s = none) ∧
    (∀ (draftId : String) (s : Store),
      s (draftKey draftId) = .errored → loadDraft draftId s = none) ∧
    (∀ (s : Store) (c : String),
      s FAVORITES_KEY = .found (.rawText c) → loadFavorites s = .arr []) ∧
    (∀ (s : Store), s FAVORITES_KEY = .errored → loadFavorites s = .arr []) ∧
    (∀ (u : JVal) (s : Store) (c : String),
      s REVIEWS_KEY = .found (.rawText c) → loadUserReviews u s = .arr []) ∧
    (∀ (u : JVal) (s : Store),
      s REVIEWS_KEY = .errored → loadUserReviews u s = .arr []) := by
  refine ⟨?_, ?_, ?_, ?_, ?_, ?_⟩ <;> intros <;>
    simp_all [loadDraft, loadFavorites, loadUserReviews,
      parseKeyOrEmptyList, jsonParse]

/-- C6 witness: on a store whose every read throws on decode, the
three loaders return their safe defaults. -/
theorem C6_load_failures_return_defaults_witness :
    loadDraft "create" (fun _ => .found (.rawText "oops")) = none ∧
    loadFavorites (fun _ => .found (.rawText "oops")) = .arr [] ∧
    loadUserReviews (.str "u1") (fun _ => .found (.rawText "oops")) = .arr [] :=
  ⟨C6_load_failures_return_defaults.1 "create" _ "oops" rfl,
   C6_load_failures_return_defaults.2.2.1 _ "oops" rfl,
   C6_load_failures_return_defaults.2.2.2.2.1 (.str "u1") _ "oops" rfl⟩

/-- C7.  `loadFavorites` normalizes both legacy on-disk shapes: a bare
sequence is returned unchanged, and an object shape whose `items`
field holds a sequence yields that sequence. -/
theorem C7_loadFavorites_legacy_shapes :
    (∀ (s : Store) (l : List JVal),
      s FAVORITES_KEY = .found (.doc (.arr l)) → loadFavorites s = .arr l) ∧
    (∀ (s : Store) (kvs : List (String × JVal)) (l : List JVal),
      s FAVORITES_KEY = .found (.doc (.obj kvs)) →
      fieldLookup kvs "items" = some (.arr l) →
      loadFavorites s = .arr l) := by
  constructor
  · exact loadFavorites_found_arr
  · intro s kvs l h hitems
    simp [loadFavorites, parseKeyOrEmptyList, h, jsonParse, jsGetD, hitems,
      jsOr, jsTruthy]

/-- C7 witness: the spec's scenario, the stored legacy shape with
`items` holding one entry with id `r2` reads back as that sequence. -/
theorem C7_loadFavorites_legacy_shapes_witness :
    loadFavorites (setItem emptyStore FAVORITES_KEY
        (.doc (.obj [("items", .arr [.obj [("id", .str "r2")]])])))
      = .arr [.obj [("id", .str "r2")]] :=
  C7_loadFavorites_legacy_shapes.2 _ [("items", .arr [.obj [("id", .str "r2")]])]
    [.obj [("id", .str "r2")]] (setItem_self _ _ _) rfl

/-- C8.  Review update and delete are remote-only: when the remote
call rejects, `updateReview` and `deleteReview` rethrow the error
value to the caller and leave the store untouched. -/
theorem C8_update_delete_remote_only (e reviewId reviewData : JVal)
    (s : Store) :
    updateReview (.fail e) reviewId reviewData s = (.error e, s) ∧
    deleteReview (.fail e) reviewId s = (.error e, s) :=
  ⟨rfl, rfl⟩

/-- C9, counterexample.  "removeFromFavorites returns true
unconditionally" fails: with the well-formed stored favorites document
whose `items` field is the number 3, `loadFavorites` returns `3`,
`favorites.filter` throws, and `removeFromFavorites` returns `false`
without writing. -/
theorem C9_counterexample_nonArray_favorites :
    removeFromFavorites (.str "r1")
      (setItem emptyStore FAVORITES_KEY (.doc (.obj [("items", .num 3)])))
      = (false,
         setItem emptyStore FAVORITES_KEY (.doc (.obj [("items", .num 3)]))) :=
  rfl

/-- C9, amended.  Whenever the stored favorites load as a sequence
whose elements are not `null`/`undefined` (which includes a missing
key, undecodable content, the bare-sequence shape and the legacy
`items` shape), `removeFromFavorites` filters out the entries whose id
strictly equals the given identifier, writes the result, and returns
`true`; removing an identifier that matches no entry leaves the loaded
set of entries unaltered. -/
theorem C9_removeFromFavorites_idempotent (recipeId : JVal) (s : Store)
    (favs : List JVal) (hload : loadFavorites s = .arr favs)
    (helem : ∀ f ∈ favs, f ≠ .null ∧ f ≠ .undefined) :
    removeFromFavorites recipeId s =
      (true, setItem s FAVORITES_KEY (.doc (.arr
        (favs.filter (fun f => !jsStrictEq (jsGetD f "id") recipeId))))) ∧
    ((∀ f ∈ favs, jsStrictEq (jsGetD f "id") recipeId = false) →
      loadFavorites (removeFromFavorites recipeId s).2 = .arr favs) := by
  have hp : ∀ x ∈ favs,
      (do pure (!jsStrictEq (← jsGetFieldE x "id") recipeId) :
        Except Unit Bool)
      = .ok (!jsStrictEq (jsGetD x "id") recipeId) := by
    intro x hx
    rw [jsGetFieldE_eq_ok x (helem x hx).1 (helem x hx).2 "id"]
    rfl
  have hfilter := jsFilterE_ok _
    (fun f => !jsStrictEq (jsGetD f "id") recipeId) favs hp
  have hmain : removeFromFavorites recipeId s =
      (true, setItem s FAVORITES_KEY (.doc (.arr
        (favs.filter (fun f => !jsStrictEq (jsGetD f "id") recipeId))))) := by
    unfold removeFromFavorites
    rw [hload]
    dsimp only
    rw [hfilter]
  refine ⟨hmain, fun hall => ?_⟩
  have hid : favs.filter (fun f => !jsStrictEq (jsGetD f "id") recipeId) = favs :=
    List.filter_eq_self.mpr (fun a ha => by simp [hall a ha])
  rw [hmain]
  dsimp only
  rw [hid]
  exact loadFavorites_found_arr _ _ (setItem_self _ _ _)

/-- C9 witness: removing an absent id from a one-entry favorites store
returns true and leaves the entry set unchanged. -/
theorem C9_removeFromFavorites_idempotent_witness :
    loadFavorites (removeFromFavorites (.str "r2")
      (setItem emptyStore FAVORITES_KEY
        (.doc (.arr [.obj [("id", .str "r1")]])))).2
      = .arr [.obj [("id", .str "r1")]] :=
  (C9_removeFromFavorites_idempotent (.str "r2") _ [.obj [("id", .str "r1")]]
      (loadFavorites_found_arr _ _ (setItem_self _ _ _))
      (by intro f hf; rw [List.mem_singleton] at hf; subst hf; exact ⟨by simp, by simp⟩)).2
    (by intro f hf; rw [List.mem_singleton] at hf; subst hf; rfl)

/-! ## Helper lemmas: favorites operations -/

theorem exceptBind_ok {ε α β : Type} (a : α) (f : α → Except ε β) :
    ((Except.ok a : Except ε α) >>= f) = f a := rfl

theorem jsStrictEq_eq_of_true (a b : JVal) (h : jsStrictEq a b = true) :
    a = b := by
  cases a <;> cases b <;> simp_all [jsStrictEq]

theorem jsStrictEq_truthy_falsy (a b : JVal) (ha : jsTruthy a = true)
    (hb : jsTruthy b = false) : jsStrictEq a b = false := by
  cases a <;> cases b <;> simp_all [jsTruthy, jsStrictEq]

theorem jsOr_of_falsy (a b : JVal) (h : jsTruthy a = false) :
    jsOr a b = b := by simp [jsOr, h]

theorem jsOr_of_truthy (a b : JVal) (h : jsTruthy a = true) :
    jsOr a b = a := by simp [jsOr, h]

theorem goodEntryB_not_null (f : JVal) (h : goodEntryB f = true) :
    f ≠ .null ∧ f ≠ .undefined := by
  cases f <;> simp_all [goodEntryB, isObjB]

theorem entryId_mkFavEntry (recipe : JVal) (now : Int) (ts : String) :
    entryId (mkFavEntry recipe now ts) =
      jsOr (jsGetD recipe "id") (.num now) := by
  simp [entryId, mkFavEntry, jsGetD, fieldLookup]

theorem idCheckPred_ok (target : JVal) (l : List JVal)
    (helem : ∀ f ∈ l, f ≠ .null ∧ f ≠ .undefined) :
    ∀ x ∈ l,
      (do pure (jsStrictEq (← jsGetFieldE x "id") target) : Except Unit Bool)
        = .ok (jsStrictEq (jsGetD x "id") target) := by
  intro x hx
  rw [jsGetFieldE_eq_ok x (helem x hx).1 (helem x hx).2]
  rfl

theorem isRecipeFavorited_spec (target : JVal) (s : Store)
    (favs : List JVal) (hload : loadFavorites s = .arr favs)
    (helem : ∀ f ∈ favs, f ≠ .null ∧ f ≠ .undefined) :
    isRecipeFavorited target s =
      favs.any (fun f => jsStrictEq (jsGetD f "id") target) := by
  unfold isRecipeFavorited
  rw [hload]
  dsimp only
  rw [jsAnyE_ok _ (fun f => jsStrictEq (jsGetD f "id") target) favs
    (idCheckPred_ok target favs helem)]

/-- `addToFavorites` when no stored entry's id strictly equals the
recipe's id: the snapshot entry is appended and the call returns
`true`. -/
theorem addToFavorites_not_present (recipe : JVal) (now : Int)
    (ts : String) (s : Store) (favs : List JVal)
    (hload : loadFavorites s = .arr favs)
    (hr0 : recipe ≠ .null) (hr1 : recipe ≠ .undefined)
    (helem : ∀ f ∈ favs, f ≠ .null ∧ f ≠ .undefined)
    (hnomatch : ∀ f ∈ favs,
      jsStrictEq (jsGetD f "id") (jsGetD recipe "id") = false) :
    addToFavorites recipe now ts s =
      (true, setItem s FAVORITES_KEY
        (.doc (.arr (favs ++ [mkFavEntry recipe now ts])))) := by
  unfold addToFavorites addToFavoritesE
  rw [hload, jsGetFieldE_eq_ok recipe hr0 hr1 "id"]
  simp only [exceptBind_ok]
  rw [jsFindIdxE_ok_none _
    (fun f => jsStrictEq (jsGetD f "id") (jsGetD recipe "id")) favs
    (idCheckPred_ok (jsGetD recipe "id") favs helem) hnomatch]
  rfl

/-- `addToFavorites` when some stored entry's id strictly equals the
recipe's id: no write happens and the call returns `false`. -/
theorem addToFavorites_present (recipe : JVal) (now : Int) (ts : String)
    (s : Store) (favs : List JVal)
    (hload : loadFavorites s = .arr favs)
    (hr0 : recipe ≠ .null) (hr1 : recipe ≠ .undefined)
    (helem : ∀ f ∈ favs, f ≠ .null ∧ f ≠ .undefined)
    (hmatch : ∃ f ∈ favs,
      jsStrictEq (jsGetD f "id") (jsGetD recipe "id") = true) :
    addToFavorites recipe now ts s = (false, s) := by
  obtain ⟨i, hi⟩ := jsFindIdxE_ok_found _
    (fun f => jsStrictEq (jsGetD f "id") (jsGetD recipe "id")) favs
    (idCheckPred_ok (jsGetD recipe "id") favs helem) hmatch
  unfold addToFavorites addToFavoritesE
  rw [hload, jsGetFieldE_eq_ok recipe hr0 hr1 "id"]
  simp only [exceptBind_ok]
  rw [hi]
  rfl

/-- `removeFromFavorites` on favorites that load as a sequence of
non-null entries: filters by id and returns `true`. -/
theorem removeFromFavorites_spec (target : JVal) (s : Store)
    (favs : List JVal) (hload : loadFavorites s = .arr favs)
    (helem : ∀ f ∈ favs, f ≠ .null ∧ f ≠ .undefined) :
    removeFromFavorites target s =
      (true, setItem s FAVORITES_KEY (.doc (.arr
        (favs.filter (fun f => !jsStrictEq (jsGetD f "id") target))))) := by
  have hp : ∀ x ∈ favs,
      (do pure (!jsStrictEq (← jsGetFieldE x "id") target) :
        Except Unit Bool)
      = .ok (!jsStrictEq (jsGetD x "id") target) := by
    intro x hx
    rw [jsGetFieldE_eq_ok x (helem x hx).1 (helem x hx).2 "id"]
    rfl
  unfold removeFromFavorites
  rw [hload]
  dsimp only
  rw [jsFilterE_ok _ (fun f => !jsStrictEq (jsGetD f "id") target) favs hp]

/-- Over a list whose mapped ids are pairwise distinct, at most one
element satisfies a predicate that pins down the id. -/
theorem countP_le_one_of_map_nodup (l : List JVal) (p : JVal → Bool)
    (c : JVal) (hnd : (l.map entryId).Nodup)
    (hp : ∀ x, p x = true → entryId x = c) : l.countP p ≤ 1 := by
  induction l with
  | nil => simp
  | cons x rest ih =>
    simp only [List.map_cons, List.nodup_cons] at hnd
    obtain ⟨hnotin, hnd'⟩ := hnd
    by_cases hx : p x = true
    · have hrest : rest.countP p = 0 := by
        rw [List.countP_eq_zero]
        intro y hy hpy
        exact hnotin (hp x hx ▸ hp y hpy ▸ List.mem_map_of_mem entryId hy)
      rw [List.countP_cons_of_pos _ _ hx, hrest]
    · rw [List.countP_cons_of_neg _ _ (by simp [hx])]
      exact ih hnd'

theorem goodEntryB_spec (f : JVal) (h : goodEntryB f = true) :
    isObjB f = true ∧ isPrimB (entryId f) = true ∧
      jsTruthy (entryId f) = true := by
  simp only [goodEntryB, Bool.and_eq_true] at h
  exact ⟨h.1.1, h.1.2, h.2⟩

theorem goodEntries_not_null (favs : List JVal)
    (h : ∀ f ∈ favs, goodEntryB f = true) :
    ∀ f ∈ favs, f ≠ .null ∧ f ≠ .undefined :=
  fun f hf => goodEntryB_not_null f (h f hf)

/-- `addToFavorites` preserves the favorites set invariant when the
added recipe is an object carrying a truthy primitive identifier. -/
theorem FavSetInv_addToFavorites (recipe : JVal) (now : Int) (ts : String)
    (s : Store) (hInv : FavSetInv s)
    (hobj : isObjB recipe = true)
    (hprim : isPrimB (jsGetD recipe "id") = true)
    (htruthy : jsTruthy (jsGetD recipe "id") = true) :
    FavSetInv (addToFavorites recipe now ts s).2 := by
  obtain ⟨favs, hload, hgood, hnodup⟩ := hInv
  have hgood' : ∀ f ∈ favs, goodEntryB f = true := by
    intro f hf
    exact List.all_eq_true.mp hgood f hf
  have helem := goodEntries_not_null favs hgood'
  have hr0 : recipe ≠ .null := by cases recipe <;> simp_all [isObjB]
  have hr1 : recipe ≠ .undefined := by cases recipe <;> simp_all [isObjB]
  by_cases hmatch : ∃ f ∈ favs,
      jsStrictEq (jsGetD f "id") (jsGetD recipe "id") = true
  · rw [addToFavorites_present recipe now ts s favs hload hr0 hr1 helem hmatch]
    exact ⟨favs, hload, hgood, hnodup⟩
  · push_neg at hmatch
    have hnomatch : ∀ f ∈ favs,
        jsStrictEq (jsGetD f "id") (jsGetD recipe "id") = false := by
      intro f hf
      cases hb : jsStrictEq (jsGetD f "id") (jsGetD recipe "id")
      · rfl
      · exact absurd hb (hmatch f hf)
    rw [addToFavorites_not_present recipe now ts s favs hload hr0 hr1
      helem hnomatch]
    dsimp only
    refine ⟨favs ++ [mkFavEntry recipe now ts],
      loadFavorites_found_arr _ _ (setItem_self _ _ _), ?_, ?_⟩
    · rw [List.all_append]
      refine (Bool.and_eq_true _ _).mpr ⟨hgood, ?_⟩
      have hidentry : entryId (mkFavEntry recipe now ts) = jsGetD recipe "id" := by
        rw [entryId_mkFavEntry, jsOr_of_truthy _ _ htruthy]
      simp only [List.all_cons, List.all_nil, Bool.and_true]
      simp only [goodEntryB, Bool.and_eq_true]
      exact ⟨⟨rfl, hidentry ▸ hprim⟩, hidentry ▸ htruthy⟩
    · rw [List.map_append]
      rw [List.nodup_append]
      refine ⟨hnodup, by simp, ?_⟩
      intro a ha hamem
      simp only [List.map_cons, List.map_nil, List.mem_singleton] at hamem
      subst hamem
      obtain ⟨f, hf, hfe⟩ := List.mem_map.mp ha
      have : jsStrictEq (entryId f) (jsGetD recipe "id") = false := by
        rw [show entryId f = jsGetD f "id" from rfl]
        exact hnomatch f hf
      rw [entryId_mkFavEntry, jsOr_of_truthy _ _ htruthy] at hfe
      rw [hfe] at this
      rw [jsStrictEq_self _ hprim] at this
      cases this

/-- `removeFromFavorites` preserves the favorites set invariant. -/
theorem FavSetInv_removeFromFavorites (target : JVal) (s : Store)
    (hInv : FavSetInv s) :
    FavSetInv (removeFromFavorites target s).2 := by
  obtain ⟨favs, hload, hgood, hnodup⟩ := hInv
  have hgood' : ∀ f ∈ favs, goodEntryB f = true := by
    intro f hf
    exact List.all_eq_true.mp hgood f hf
  have helem := goodEntries_not_null favs hgood'
  rw [removeFromFavorites_spec target s favs hload helem]
  dsimp only
  refine ⟨favs.filter (fun f => !jsStrictEq (jsGetD f "id") target),
    loadFavorites_found_arr _ _ (setItem_self _ _ _), ?_, ?_⟩
  · rw [List.all_eq_true]
    intro f hf
    exact hgood' f (List.mem_of_mem_filter hf)
  · exact ((List.filter_sublist favs).map entryId).nodup hnodup

theorem FavSetInv_emptyStore : FavSetInv emptyStore :=
  ⟨[], rfl, rfl, List.nodup_nil⟩

theorem FavSetInv_applyFavOp (s : Store) (op : FavOp) (hInv : FavSetInv s)
    (hop : favOpOkB op = true) : FavSetInv (applyFavOp s op) := by
  cases op with
  | add r n t =>
    simp only [favOpOkB, Bool.and_eq_true] at hop
    exact FavSetInv_addToFavorites r n t s hInv hop.1.1 hop.1.2 hop.2
  | remove rid => exact FavSetInv_removeFromFavorites rid s hInv

theorem FavSetInv_applyFavOps (ops : List FavOp) (s : Store)
    (hInv : FavSetInv s) (hops : ∀ op ∈ ops, favOpOkB op = true) :
    FavSetInv (applyFavOps s ops) := by
  induction ops generalizing s with
  | nil => exact hInv
  | cons op rest ih =>
    exact ih (applyFavOp s op)
      (FavSetInv_applyFavOp s op hInv (hops op (List.mem_cons_self _ _)))
      (fun o ho => hops o (List.mem_cons_of_mem _ ho))

/-- C3, counterexample.  "Every reachable favorites state has at most
one entry per recipe identifier" fails: starting from the empty store,
two `addToFavorites` calls with an id-less recipe in the same
millisecond (`Date.now() = 100` both times) produce a state with two
entries whose identifier is `100`. -/
theorem C3_counterexample_duplicate_generated_id :
    loadFavorites (applyFavOps emptyStore
        [.add (.obj []) 100 "T", .add (.obj []) 100 "T"])
      = .arr [mkFavEntry (.obj []) 100 "T", mkFavEntry (.obj []) 100 "T"] ∧
    ([mkFavEntry (.obj []) 100 "T", mkFavEntry (.obj []) 100 "T"] :
        List JVal).countP (fun f => jsStrictEq (entryId f) (.num 100)) = 2 :=
  ⟨rfl, rfl⟩

/-- C3, amended.  Favorites form a set keyed by recipe identifier for
recipes that carry one: (i) if a stored entry's id strictly equals the
recipe's id, `addToFavorites` returns `false` and leaves the store
unchanged; (ii) adding a recipe with a truthy primitive id twice in
sequence makes the second call a `false` no-op and leaves exactly one
entry with that id; (iii) every state reachable from the empty store
by adds of recipes carrying truthy primitive ids and arbitrary removes
has at most one entry per identifier. -/
theorem C3_favorites_set_keyed_by_id :
    (∀ (recipe : JVal) (now : Int) (ts : String) (s : Store)
        (favs : List JVal),
      loadFavorites s = .arr favs →
      (∀ f ∈ favs, f ≠ .null ∧ f ≠ .undefined) →
      recipe ≠ .null → recipe ≠ .undefined →
      (∃ f ∈ favs, jsStrictEq (jsGetD f "id") (jsGetD recipe "id") = true) →
      addToFavorites recipe now ts s = (false, s)) ∧
    (∀ (recipe : JVal) (now now2 : Int) (ts ts2 : String) (s : Store)
        (favs : List JVal),
      loadFavorites s = .arr favs →
      favs.all goodEntryB = true →
      isObjB recipe = true →
      isPrimB (jsGetD recipe "id") = true →
      jsTruthy (jsGetD recipe "id") = true →
      (∀ f ∈ favs, jsStrictEq (jsGetD f "id") (jsGetD recipe "id") = false) →
      addToFavorites recipe now2 ts2 (addToFavorites recipe now ts s).2
          = (false, (addToFavorites recipe now ts s).2) ∧
      ∃ favs2,
        loadFavorites (addToFavorites recipe now2 ts2
          (addToFavorites recipe now ts s).2).2 = .arr favs2 ∧
        favs2.countP (fun f => jsStrictEq (entryId f) (jsGetD recipe "id"))
          = 1) ∧
    (∀ ops : List FavOp, (∀ op ∈ ops, favOpOkB op = true) →
      ∃ favs, loadFavorites (applyFavOps emptyStore ops) = .arr favs ∧
        ∀ target : JVal,
          favs.countP (fun f => jsStrictEq (entryId f) target) ≤ 1) := by
  refine ⟨?_, ?_, ?_⟩
  · intro recipe now ts s favs hload helem hr0 hr1 hmatch
    exact addToFavorites_present recipe now ts s favs hload hr0 hr1 helem
      hmatch
  · intro recipe now now2 ts ts2 s favs hload hgood hobj hprim htruthy
      hnomatch
    have hgood' : ∀ f ∈ favs, goodEntryB f = true :=
      fun f hf => List.all_eq_true.mp hgood f hf
    have helem := goodEntries_not_null favs hgood'
    have hr0 : recipe ≠ .null := by cases recipe <;> simp_all [isObjB]
    have hr1 : recipe ≠ .undefined := by cases recipe <;> simp_all [isObjB]
    have h1 := addToFavorites_not_present recipe now ts s favs hload hr0 hr1
      helem hnomatch
    have hidentry : entryId (mkFavEntry recipe now ts) = jsGetD recipe "id" := by
      rw [entryId_mkFavEntry, jsOr_of_truthy _ _ htruthy]
    have hload1 : loadFavorites (addToFavorites recipe now ts s).2
        = .arr (favs ++ [mkFavEntry recipe now ts]) := by
      rw [h1]
      dsimp only
      exact loadFavorites_found_arr _ _ (setItem_self _ _ _)
    have helem1 : ∀ f ∈ favs ++ [mkFavEntry recipe now ts],
        f ≠ .null ∧ f ≠ .undefined := by
      intro f hf
      rcases List.mem_append.mp hf with hf' | hf'
      · exact helem f hf'
      · rw [List.mem_singleton] at hf'
        subst hf'
        exact ⟨by simp [mkFavEntry], by simp [mkFavEntry]⟩
    have h2 := addToFavorites_present recipe now2 ts2 _ _ hload1 hr0 hr1
      helem1 ⟨mkFavEntry recipe now ts, List.mem_append_right _
        (List.mem_singleton_self _),
        by rw [show jsGetD (mkFavEntry recipe now ts) "id"
            = entryId (mkFavEntry recipe now ts) from rfl, hidentry]
           exact jsStrictEq_self _ hprim⟩
    refine ⟨h2, favs ++ [mkFavEntry recipe now ts], ?_, ?_⟩
    · rw [h2]
      exact hload1
    · rw [List.countP_append]
      have hz : favs.countP
          (fun f => jsStrictEq (entryId f) (jsGetD recipe "id")) = 0 := by
        rw [List.countP_eq_zero]
        intro f hf
        simp [entryId, hnomatch f hf]
      rw [hz]
      have hone : jsStrictEq (entryId (mkFavEntry recipe now ts))
          (jsGetD recipe "id") = true := by
        rw [hidentry]
        exact jsStrictEq_self _ hprim
      simp [List.countP_cons, hone]
  · intro ops hops
    obtain ⟨favs, hload, _, hnodup⟩ :=
      FavSetInv_applyFavOps ops emptyStore FavSetInv_emptyStore hops
    refine ⟨favs, hload, fun target => ?_⟩
    exact countP_le_one_of_map_nodup favs _ target hnodup
      (fun x hx => jsStrictEq_eq_of_true _ _ hx)

/-- C3 witness: adding the same recipe (id `r1`) twice to an empty
store: the second call is a `false` no-op and exactly one entry with id
`r1` is stored. -/
theorem C3_favorites_set_keyed_by_id_witness :
    addToFavorites (.obj [("id", JVal.str "r1")]) 2 "T2"
        (addToFavorites (.obj [("id", JVal.str "r1")]) 1 "T1" emptyStore).2
      = (false,
         (addToFavorites (.obj [("id", JVal.str "r1")]) 1 "T1" emptyStore).2) ∧
    ∃ favs2,
      loadFavorites (addToFavorites (.obj [("id", JVal.str "r1")]) 2 "T2"
        (addToFavorites (.obj [("id", JVal.str "r1")]) 1 "T1" emptyStore).2).2
        = .arr favs2 ∧
      favs2.countP (fun f => jsStrictEq (entryId f)
        (jsGetD (.obj [("id", JVal.str "r1")]) "id")) = 1 :=
  C3_favorites_set_keyed_by_id.2.1 (.obj [("id", JVal.str "r1")]) 1 2 "T1" "T2"
    emptyStore [] rfl rfl rfl rfl rfl (by simp)

/-- C10.  For a recipe whose `id` field is absent or otherwise falsy,
`addToFavorites` returns `true` and appends a fresh entry whose id is
the `Date.now()` value — the duplicate check compares stored ids
against the recipe's own falsy id and never matches a stored entry
with a truthy id — so two such calls append two entries; the
hypotheses require the stored entries to be well-formed (truthy
primitive ids, the shape every entry written by the code has) and the
clock values to be positive. -/
theorem C10_addToFavorites_falsy_id (rkvs : List (String × JVal))
    (s : Store) (favs : List JVal) (now now2 : Int) (ts ts2 : String)
    (hload : loadFavorites s = .arr favs)
    (hgood : favs.all goodEntryB = true)
    (hid : jsTruthy (jsGetD (.obj rkvs) "id") = false)
    (hnow : 0 < now) (_hnow2 : 0 < now2) :
    addToFavorites (.obj rkvs) now ts s =
      (true, setItem s FAVORITES_KEY (.doc (.arr
        (favs ++ [mkFavEntry (.obj rkvs) now ts])))) ∧
    entryId (mkFavEntry (.obj rkvs) now ts) = .num now ∧
    addToFavorites (.obj rkvs) now2 ts2
        (addToFavorites (.obj rkvs) now ts s).2 =
      (true, setItem (addToFavorites (.obj rkvs) now ts s).2 FAVORITES_KEY
        (.doc (.arr (favs ++ [mkFavEntry (.obj rkvs) now ts,
                              mkFavEntry (.obj rkvs) now2 ts2])))) := by
  have hgood' : ∀ f ∈ favs, goodEntryB f = true :=
    fun f hf => List.all_eq_true.mp hgood f hf
  have helem := goodEntries_not_null favs hgood'
  have hnomatch : ∀ f ∈ favs,
      jsStrictEq (jsGetD f "id") (jsGetD (.obj rkvs) "id") = false := by
    intro f hf
    exact jsStrictEq_truthy_falsy _ _ (goodEntryB_spec f (hgood' f hf)).2.2 hid
  have h1 := addToFavorites_not_present (.obj rkvs) now ts s favs hload
    (by simp) (by simp) helem hnomatch
  have hident1 : entryId (mkFavEntry (.obj rkvs) now ts) = .num now := by
    rw [entryId_mkFavEntry, jsOr_of_falsy _ _ hid]
  refine ⟨h1, hident1, ?_⟩
  have hload1 : loadFavorites (addToFavorites (.obj rkvs) now ts s).2
      = .arr (favs ++ [mkFavEntry (.obj rkvs) now ts]) := by
    rw [h1]
    dsimp only
    exact loadFavorites_found_arr _ _ (setItem_self _ _ _)
  have helem1 : ∀ f ∈ favs ++ [mkFavEntry (.obj rkvs) now ts],
      f ≠ .null ∧ f ≠ .undefined := by
    intro f hf
    rcases List.mem_append.mp hf with hf' | hf'
    · exact helem f hf'
    · rw [List.mem_singleton] at hf'
      subst hf'
      exact ⟨by simp [mkFavEntry], by simp [mkFavEntry]⟩
  have hnomatch1 : ∀ f ∈ favs ++ [mkFavEntry (.obj rkvs) now ts],
      jsStrictEq (jsGetD f "id") (jsGetD (.obj rkvs) "id") = false := by
    intro f hf
    rcases List.mem_append.mp hf with hf' | hf'
    · exact hnomatch f hf'
    · rw [List.mem_singleton] at hf'
      subst hf'
      refine jsStrictEq_truthy_falsy _ _ ?_ hid
      rw [show jsGetD (mkFavEntry (.obj rkvs) now ts) "id"
          = entryId (mkFavEntry (.obj rkvs) now ts) from rfl, hident1]
      simp [jsTruthy]
      omega
  have h2 := addToFavorites_not_present (.obj rkvs) now2 ts2 _ _ hload1
    (by simp) (by simp) helem1 hnomatch1
  rw [h2, List.append_assoc]
  rfl

/-- C10 witness: two id-less adds on the empty store at times 100 and
200 both return true and append two distinct fresh entries. -/
theorem C10_addToFavorites_falsy_id_witness :
    addToFavorites (.obj []) 100 "T1" emptyStore =
      (true, setItem emptyStore FAVORITES_KEY (.doc (.arr
        [mkFavEntry (.obj []) 100 "T1"]))) ∧
    entryId (mkFavEntry (.obj []) 100 "T1") = .num 100 ∧
    addToFavorites (.obj []) 200 "T2"
        (addToFavorites (.obj []) 100 "T1" emptyStore).2 =
      (true, setItem (addToFavorites (.obj []) 100 "T1" emptyStore).2
        FAVORITES_KEY (.doc (.arr [mkFavEntry (.obj []) 100 "T1",
                                   mkFavEntry (.obj []) 200 "T2"]))) :=
  C10_addToFavorites_falsy_id [] emptyStore [] 100 200 "T1" "T2"
    rfl rfl rfl (by decide) (by decide)

/-! ## Helper lemmas: review storage -/

theorem mkReview_recipe_id (recipeId reviewData : JVal) (now : Int)
    (ts : String) :
    jsGetD (mkReview recipeId reviewData now ts) "recipe_id" = recipeId := by
  simp [mkReview, jsGetD, fieldLookup]

theorem saveReviewToStorage_spec (recipeId : JVal)
    (rkvs : List (String × JVal)) (now : Int) (ts : String) (s : Store)
    (l : List JVal)
    (hrev : parseKeyOrEmptyList s REVIEWS_KEY = .ok (.arr l)) :
    saveReviewToStorage recipeId (.obj rkvs) now ts s =
      (some (mkReview recipeId (.obj rkvs) now ts),
       setItem s REVIEWS_KEY (.doc (.arr
         (l ++ [mkReview recipeId (.obj rkvs) now ts])))) := by
  unfold saveReviewToStorage
  rw [hrev]
  rfl

theorem getReviewsFromStorage_spec (rid : String) (s : Store)
    (l : List JVal)
    (hrev : parseKeyOrEmptyList s REVIEWS_KEY = .ok (.arr l))
    (helem : ∀ x ∈ l, x ≠ .null ∧ x ≠ .undefined) :
    getReviewsFromStorage (.str rid) s =
      .arr (l.filter (fun r => jsStrictEq (jsGetD r "recipe_id") (.str rid))) := by
  have hp : ∀ x ∈ l,
      (do pure (jsStrictEq (← jsGetFieldE x "recipe_id") (.str rid)) :
        Except Unit Bool)
      = .ok (jsStrictEq (jsGetD x "recipe_id") (.str rid)) := by
    intro x hx
    rw [jsGetFieldE_eq_ok x (helem x hx).1 (helem x hx).2]
    rfl
  unfold getReviewsFromStorage
  rw [hrev]
  dsimp only
  rw [jsFilterE_ok _
    (fun r => jsStrictEq (jsGetD r "recipe_id") (.str rid)) l hp]

/-- C4.  Review creation is fallback-tolerant: when the remote create
call rejects, `createReview` persists a local copy with an identifier
derived from the creation time, returns the success envelope tagged
`offline: true`, and the review is retrievable from a subsequent
`getReviews` served by the local fallback; on a resolved remote call
with a truthy success flag the local copy is persisted as well. -/
theorem C4_createReview_offline_fallback :
    (∀ (e : JVal) (rid : String) (rkvs : List (String × JVal)) (now : Int)
        (ts : String) (s : Store) (l : List JVal),
      parseKeyOrEmptyList s REVIEWS_KEY = .ok (.arr l) →
      (∀ x ∈ l, x ≠ .null ∧ x ≠ .undefined) →
      (createReview (.fail e) (.str rid) (.obj rkvs) now ts s).1
          = .obj [("success", .bool true), ("data", .obj rkvs),
                  ("offline", .bool true)] ∧
      (createReview (.fail e) (.str rid) (.obj rkvs) now ts s).2 REVIEWS_KEY
          = .found (.doc (.arr (l ++ [mkReview (.str rid) (.obj rkvs) now ts]))) ∧
      jsGetD (mkReview (.str rid) (.obj rkvs) now ts) "id"
          = .str (toString now) ∧
      ∃ l', getReviews (.fail e) (.str rid)
            (createReview (.fail e) (.str rid) (.obj rkvs) now ts s).2
          = .obj [("success", .bool true), ("data", .arr l')] ∧
        mkReview (.str rid) (.obj rkvs) now ts ∈ l') ∧
    (∀ (resp : JVal) (rid : String) (rkvs : List (String × JVal)) (now : Int)
        (ts : String) (s : Store) (l : List JVal),
      parseKeyOrEmptyList s REVIEWS_KEY = .ok (.arr l) →
      jsTruthy (jsGetD resp "success") = true →
      resp ≠ .null → resp ≠ .undefined →
      (createReview (.ok resp) (.str rid) (.obj rkvs) now ts s).2 REVIEWS_KEY
          = .found (.doc (.arr (l ++ [mkReview (.str rid) (.obj rkvs) now ts])))) := by
  constructor
  · intro e rid rkvs now ts s l hrev helem
    have hsave := saveReviewToStorage_spec (.str rid) rkvs now ts s l hrev
    have hstore : (createReview (.fail e) (.str rid) (.obj rkvs) now ts s).2
        = setItem s REVIEWS_KEY (.doc (.arr
          (l ++ [mkReview (.str rid) (.obj rkvs) now ts]))) := by
      unfold createReview
      rw [hsave]
    refine ⟨by unfold createReview; rw [hsave], ?_, ?_, ?_⟩
    · rw [hstore]
      exact setItem_self _ _ _
    · simp [mkReview, jsGetD, fieldLookup]
    · have hrev' : parseKeyOrEmptyList
          (createReview (.fail e) (.str rid) (.obj rkvs) now ts s).2
          REVIEWS_KEY
          = .ok (.arr (l ++ [mkReview (.str rid) (.obj rkvs) now ts])) := by
        rw [hstore]
        simp [parseKeyOrEmptyList, setItem_self, jsonParse]
      have helem' : ∀ x ∈ l ++ [mkReview (.str rid) (.obj rkvs) now ts],
          x ≠ .null ∧ x ≠ .undefined := by
        intro x hx
        rcases List.mem_append.mp hx with hx' | hx'
        · exact helem x hx'
        · rw [List.mem_singleton] at hx'
          subst hx'
          exact ⟨by simp [mkReview], by simp [mkReview]⟩
      refine ⟨(l ++ [mkReview (.str rid) (.obj rkvs) now ts]).filter
          (fun r => jsStrictEq (jsGetD r "recipe_id") (.str rid)), ?_, ?_⟩
      · show JVal.obj [("success", .bool true),
            ("data", getReviewsFromStorage (.str rid) _)] = _
        rw [getReviewsFromStorage_spec rid _ _ hrev' helem']
      · refine List.mem_filter.mpr ⟨List.mem_append_right _
          (List.mem_singleton_self _), ?_⟩
        rw [mkReview_recipe_id]
        simp [jsStrictEq]
  · intro resp rid rkvs now ts s l hrev hsucc h0 h1
    have hsave := saveReviewToStorage_spec (.str rid) rkvs now ts s l hrev
    unfold createReview
    dsimp only
    rw [jsGetFieldE_eq_ok resp h0 h1]
    simp [hsucc, hsave, setItem_self]

/-- C4 witness: a rejected remote call on the empty store persists the
review locally, returns the offline envelope, and the review is served
by the local-fallback `getReviews`. -/
theorem C4_createReview_offline_fallback_witness :
    (createReview (.fail (.str "http500")) (.str "r1")
        (.obj [("rating", .num 5)]) 100 "T" emptyStore).1
      = .obj [("success", .bool true), ("data", .obj [("rating", .num 5)]),
              ("offline", .bool true)] ∧
    ∃ l', getReviews (.fail (.str "http500")) (.str "r1")
          (createReview (.fail (.str "http500")) (.str "r1")
            (.obj [("rating", .num 5)]) 100 "T" emptyStore).2
        = .obj [("success", .bool true), ("data", .arr l')] ∧
      mkReview (.str "r1") (.obj [("rating", .num 5)]) 100 "T" ∈ l' :=
  ⟨(C4_createReview_offline_fallback.1 (.str "http500") "r1"
      [("rating", .num 5)] 100 "T" emptyStore [] rfl (by simp)).1,
   (C4_createReview_offline_fallback.1 (.str "http500") "r1"
      [("rating", .num 5)] 100 "T" emptyStore [] rfl (by simp)).2.2.2⟩

/-! ## Helper lemmas: the toggle race -/

theorem FavSetInv_toggleWritePhase (recipe : JVal) (b : Bool) (now : Int)
    (ts : String) (s : Store) (hInv : FavSetInv s)
    (hobj : isObjB recipe = true)
    (hprim : isPrimB (jsGetD recipe "id") = true)
    (htruthy : jsTruthy (jsGetD recipe "id") = true) :
    FavSetInv (toggleWritePhase recipe b now ts s) := by
  cases b with
  | true => exact FavSetInv_removeFromFavorites _ s hInv
  | false => exact FavSetInv_addToFavorites recipe now ts s hInv hobj hprim htruthy

theorem FavSetInv_raceStep (r : JVal) (n1 n2 : Int) (t1 t2 : String)
    (hobj : isObjB r = true) (hprim : isPrimB (jsGetD r "id") = true)
    (htruthy : jsTruthy (jsGetD r "id") = true)
    (st : Store × Option Bool × Option Bool) (hInv : FavSetInv st.1)
    (a : TAct) : FavSetInv (raceStep r r n1 n2 t1 t2 st a).1 := by
  obtain ⟨s, b1, b2⟩ := st
  cases a with
  | read1 => exact hInv
  | read2 => exact hInv
  | write1 =>
    cases b1 with
    | none => exact hInv
    | some b => exact FavSetInv_toggleWritePhase r b n1 t1 s hInv hobj hprim htruthy
  | write2 =>
    cases b2 with
    | none => exact hInv
    | some b => exact FavSetInv_toggleWritePhase r b n2 t2 s hInv hobj hprim htruthy

theorem FavSetInv_raceExec (r : JVal) (n1 n2 : Int) (t1 t2 : String)
    (hobj : isObjB r = true) (hprim : isPrimB (jsGetD r "id") = true)
    (htruthy : jsTruthy (jsGetD r "id") = true) (acts : List TAct)
    (st : Store × Option Bool × Option Bool) (hInv : FavSetInv st.1) :
    FavSetInv (raceExec r r n1 n2 t1 t2 acts st).1 := by
  induction acts generalizing st with
  | nil => exact hInv
  | cons a rest ih =>
    exact ih (raceStep r r n1 n2 t1 t2 st a)
      (FavSetInv_raceStep r n1 n2 t1 t2 hobj hprim htruthy st hInv a)

/-- C5, counterexample.  Toggles are not serialized: starting from a
store where recipe `r1` is favorited, the overlapped schedule in which
both toggles read before either writes ends with the recipe absent,
while both serial schedules end with exactly one entry — the
overlapped outcome differs from every serial execution, so no
per-identifier serialization is in effect. -/
theorem C5_counterexample_not_serialized :
    loadFavorites (raceExec (.obj [("id", JVal.str "r1")])
        (.obj [("id", JVal.str "r1")]) 1 2 "T1" "T2"
        [.read1, .read2, .write1, .write2]
        (setItem emptyStore FAVORITES_KEY
          (.doc (.arr [.obj [("id", JVal.str "r1")]])), none, none)).1
      = .arr [] ∧
    loadFavorites (raceExec (.obj [("id", JVal.str "r1")])
        (.obj [("id", JVal.str "r1")]) 1 2 "T1" "T2"
        [.read1, .write1, .read2, .write2]
        (setItem emptyStore FAVORITES_KEY
          (.doc (.arr [.obj [("id", JVal.str "r1")]])), none, none)).1
      = .arr [mkFavEntry (.obj [("id", JVal.str "r1")]) 2 "T2"] ∧
    loadFavorites (raceExec (.obj [("id", JVal.str "r1")])
        (.obj [("id", JVal.str "r1")]) 1 2 "T1" "T2"
        [.read2, .write2, .read1, .write1]
        (setItem emptyStore FAVORITES_KEY
          (.doc (.arr [.obj [("id", JVal.str "r1")]])), none, none)).1
      = .arr [mkFavEntry (.obj [("id", JVal.str "r1")]) 1 "T1"] ∧
    JVal.arr [] ≠ .arr [mkFavEntry (.obj [("id", JVal.str "r1")]) 2 "T2"] ∧
    JVal.arr [] ≠ .arr [mkFavEntry (.obj [("id", JVal.str "r1")]) 1 "T1"] := by
  refine ⟨rfl, rfl, rfl, by simp, by simp⟩

/-- C5, amended.  Under every interleaving of the read and write
phases of two `toggleFavorite` invocations on the same recipe (an
object with a truthy primitive identifier), starting from a store
satisfying the favorites set invariant, the final favorites are a
well-defined sequence with pairwise-distinct identifiers and at most
one entry per identifier — no duplicate is created and no removal is
lost; the final membership, however, depends on the interleaving (see
the counterexample), because the code does not serialize toggles. -/
theorem C5_toggle_race_no_duplicates (recipe : JVal) (n1 n2 : Int)
    (t1 t2 : String) (acts : List TAct) (s : Store)
    (hobj : isObjB recipe = true)
    (hprim : isPrimB (jsGetD recipe "id") = true)
    (htruthy : jsTruthy (jsGetD recipe "id") = true)
    (hInv : FavSetInv s) :
    ∃ favs, loadFavorites
        (raceExec recipe recipe n1 n2 t1 t2 acts (s, none, none)).1
        = .arr favs ∧
      (favs.map entryId).Nodup ∧
      ∀ target : JVal,
        favs.countP (fun f => jsStrictEq (entryId f) target) ≤ 1 := by
  obtain ⟨favs, hload, hgood, hnodup⟩ := FavSetInv_raceExec recipe n1 n2 t1 t2
    hobj hprim htruthy acts (s, none, none) hInv
  exact ⟨favs, hload, hnodup, fun target =>
    countP_le_one_of_map_nodup favs _ target hnodup
      (fun x hx => jsStrictEq_eq_of_true _ _ hx)⟩

/-- C5 witness: the overlapped both-reads-first schedule on a store
holding one `r1` entry ends in a duplicate-free state. -/
theorem C5_toggle_race_no_duplicates_witness :
    ∃ favs, loadFavorites
        (raceExec (.obj [("id", JVal.str "r1")]) (.obj [("id", JVal.str "r1")])
          1 2 "T1" "T2" [.read1, .read2, .write1, .write2]
          (setItem emptyStore FAVORITES_KEY
            (.doc (.arr [.obj [("id", JVal.str "r1")]])), none, none)).1
        = .arr favs ∧
      (favs.map entryId).Nodup ∧
      ∀ target : JVal,
        favs.countP (fun f => jsStrictEq (entryId f) target) ≤ 1 :=
  C5_toggle_race_no_duplicates (.obj [("id", JVal.str "r1")]) 1 2 "T1" "T2"
    [.read1, .read2, .write1, .write2] _ rfl rfl rfl
    ⟨[.obj [("id", JVal.str "r1")]],
      loadFavorites_found_arr _ _ (setItem_self _ _ _), rfl, by simp⟩

/-! ## Helper lemmas: recipe normalization -/

theorem normIngredient_ok (freshI : Nat → String) (i : Nat) (x : JVal)
    (h0 : x ≠ .null) (h1 : x ≠ .undefined) :
    normIngredient freshI i x =
      .ok (.obj [("id", jsOr (jsGetD x "id")
                    (.str ("ingredient-" ++ freshI i))),
                 ("name", jsOr (jsGetD x "name") (.str "")),
                 ("quantity", jsOr (jsGetD x "quantity") (.str ""))]) := by
  unfold normIngredient
  rw [jsGetFieldE_eq_ok x h0 h1]
  rfl

theorem normStep_ok (freshS : Nat → String) (i : Nat) (x : JVal)
    (h0 : x ≠ .null) (h1 : x ≠ .undefined) :
    normStep freshS i x =
      .ok (.obj [("id", jsOr (jsGetD x "id") (.str ("step-" ++ freshS i))),
                 ("step_number", jsOr (jsGetD x "step_number")
                    (.num (Int.ofNat i + 1))),
                 ("instruction", jsOr (jsGetD x "instruction") (.str ""))]) := by
  unfold normStep
  rw [jsGetFieldE_eq_ok x h0 h1]
  rfl

theorem mapIdxE_ok_exists (f : Nat → JVal → Except Unit JVal)
    (xs : List JVal) (h : ∀ x ∈ xs, ∀ i, ∃ y, f i x = .ok y) :
    ∀ n, ∃ l, mapIdxE f n xs = .ok l := by
  induction xs with
  | nil => exact fun n => ⟨[], rfl⟩
  | cons x rest ih =>
    intro n
    obtain ⟨y, hy⟩ := h x (List.mem_cons_self _ _) n
    obtain ⟨l, hl⟩ := ih (fun z hz => h z (List.mem_cons_of_mem _ hz)) (n + 1)
    refine ⟨y :: l, ?_⟩
    unfold mapIdxE
    rw [hy]
    simp only [exceptBind_ok]
    rw [hl]
    rfl

theorem normOut_lookups (base : List (String × JVal))
    (vi vs vim vp vc vsv va vr vn vd vcat vdif : JVal) :
    fieldLookup (jsObjSetMany base
      [("ingredients", vi), ("steps", vs), ("image_url", vim),
       ("prep_time", vp), ("cook_time", vc), ("servings", vsv),
       ("average_rating", va), ("review_count", vr), ("name", vn),
       ("description", vd), ("category", vcat), ("difficulty", vdif)])
        "ingredients" = some vi ∧
    fieldLookup (jsObjSetMany base
      [("ingredients", vi), ("steps", vs), ("image_url", vim),
       ("prep_time", vp), ("cook_time", vc), ("servings", vsv),
       ("average_rating", va), ("review_count", vr), ("name", vn),
       ("description", vd), ("category", vcat), ("difficulty", vdif)])
        "steps" = some vs ∧
    fieldLookup (jsObjSetMany base
      [("ingredients", vi), ("steps", vs), ("image_url", vim),
       ("prep_time", vp), ("cook_time", vc), ("servings", vsv),
       ("average_rating", va), ("review_count", vr), ("name", vn),
       ("description", vd), ("category", vcat), ("difficulty", vdif)])
        "prep_time" = some vp ∧
    fieldLookup (jsObjSetMany base
      [("ingredients", vi), ("steps", vs), ("image_url", vim),
       ("prep_time", vp), ("cook_time", vc), ("servings", vsv),
       ("average_rating", va), ("review_count", vr), ("name", vn),
       ("description", vd), ("category", vcat), ("difficulty", vdif)])
        "cook_time" = some vc ∧
    fieldLookup (jsObjSetMany base
      [("ingredients", vi), ("steps", vs), ("image_url", vim),
       ("prep_time", vp), ("cook_time", vc), ("servings", vsv),
       ("average_rating", va), ("review_count", vr), ("name", vn),
       ("description", vd), ("category", vcat), ("difficulty", vdif)])
        "servings" = some vsv ∧
    fieldLookup (jsObjSetMany base
      [("ingredients", vi), ("steps", vs), ("image_url", vim),
       ("prep_time", vp), ("cook_time", vc), ("servings", vsv),
       ("average_rating", va), ("review_count", vr), ("name", vn),
       ("description", vd), ("category", vcat), ("difficulty", vdif)])
        "name" = some vn := by
  simp only [jsObjSetMany, List.foldl_cons, List.foldl_nil]
  refine ⟨?_, ?_, ?_, ?_, ?_, ?_⟩ <;>
    (repeat rw [fieldLookup_jsObjSet_other _ _ _ _ (by decide)]) <;>
    exact fieldLookup_jsObjSet_self _ _ _


theorem jsGetD_obj (A : List (String × JVal)) (k : String) :
    jsGetD (.obj A) k = (fieldLookup A k).getD .undefined := rfl

theorem normOut_getD (base : List (String × JVal))
    (vi vs vim vp vc vsv va vr vn vd vcat vdif : JVal) :
    jsGetD (.obj (jsObjSetMany base
      [("ingredients", vi), ("steps", vs), ("image_url", vim),
       ("prep_time", vp), ("cook_time", vc), ("servings", vsv),
       ("average_rating", va), ("review_count", vr), ("name", vn),
       ("description", vd), ("category", vcat), ("difficulty", vdif)]))
        "ingredients" = vi ∧
    jsGetD (.obj (jsObjSetMany base
      [("ingredients", vi), ("steps", vs), ("image_url", vim),
       ("prep_time", vp), ("cook_time", vc), ("servings", vsv),
       ("average_rating", va), ("review_count", vr), ("name", vn),
       ("description", vd), ("category", vcat), ("difficulty", vdif)]))
        "steps" = vs ∧
    jsGetD (.obj (jsObjSetMany base
      [("ingredients", vi), ("steps", vs), ("image_url", vim),
       ("prep_time", vp), ("cook_time", vc), ("servings", vsv),
       ("average_rating", va), ("review_count", vr), ("name", vn),
       ("description", vd), ("category", vcat), ("difficulty", vdif)]))
        "prep_time" = vp ∧
    jsGetD (.obj (jsObjSetMany base
      [("ingredients", vi), ("steps", vs), ("image_url", vim),
       ("prep_time", vp), ("cook_time", vc), ("servings", vsv),
       ("average_rating", va), ("review_count", vr), ("name", vn),
       ("description", vd), ("category", vcat), ("difficulty", vdif)]))
        "cook_time" = vc ∧
    jsGetD (.obj (jsObjSetMany base
      [("ingredients", vi), ("steps", vs), ("image_url", vim),
       ("prep_time", vp), ("cook_time", vc), ("servings", vsv),
       ("average_rating", va), ("review_count", vr), ("name", vn),
       ("description", vd), ("category", vcat), ("difficulty", vdif)]))
        "servings" = vsv ∧
    jsGetD (.obj (jsObjSetMany base
      [("ingredients", vi), ("steps", vs), ("image_url", vim),
       ("prep_time", vp), ("cook_time", vc), ("servings", vsv),
       ("average_rating", va), ("review_count", vr), ("name", vn),
       ("description", vd), ("category", vcat), ("difficulty", vdif)]))
        "name" = vn := by
  obtain ⟨h1, h2, h3, h4, h5, h6⟩ :=
    normOut_lookups base vi vs vim vp vc vsv va vr vn vd vcat vdif
  exact ⟨by rw [jsGetD_obj, h1]; rfl, by rw [jsGetD_obj, h2]; rfl,
         by rw [jsGetD_obj, h3]; rfl, by rw [jsGetD_obj, h4]; rfl,
         by rw [jsGetD_obj, h5]; rfl, by rw [jsGetD_obj, h6]; rfl⟩

theorem normIngredientsField_ok (freshI : Nat → String) (recipe : JVal)
    (h : ∀ xs, jsGetD recipe "ingredients" = .arr xs →
      ∀ x ∈ xs, x ≠ .null ∧ x ≠ .undefined) :
    ∃ li, normIngredientsField freshI recipe = .ok (.arr li) := by
  unfold normIngredientsField
  cases hc : jsGetD recipe "ingredients" with
  | arr xs =>
    obtain ⟨l, hl⟩ := mapIdxE_ok_exists (normIngredient freshI) xs
      (fun x hx i => ⟨_, normIngredient_ok freshI i x
        (h xs hc x hx).1 (h xs hc x hx).2⟩) 0
    refine ⟨l, ?_⟩
    show Except.map JVal.arr (mapIdxE (normIngredient freshI) 0 xs)
      = Except.ok (.arr l)
    rw [hl]
    rfl
  | undefined => exact ⟨[], rfl⟩
  | null => exact ⟨[], rfl⟩
  | bool b => exact ⟨[], rfl⟩
  | num n => exact ⟨[], rfl⟩
  | str s => exact ⟨[], rfl⟩
  | obj o => exact ⟨[], rfl⟩

theorem normStepsField_ok (freshS : Nat → String) (recipe : JVal)
    (h : ∀ xs, jsGetD recipe "steps" = .arr xs →
      ∀ x ∈ xs, x ≠ .null ∧ x ≠ .undefined) :
    ∃ ls, normStepsField freshS recipe = .ok (.arr ls) := by
  unfold normStepsField
  cases hc : jsGetD recipe "steps" with
  | arr xs =>
    obtain ⟨l, hl⟩ := mapIdxE_ok_exists (normStep freshS) xs
      (fun x hx i => ⟨_, normStep_ok freshS i x
        (h xs hc x hx).1 (h xs hc x hx).2⟩) 0
    refine ⟨l, ?_⟩
    show Except.map JVal.arr (mapIdxE (normStep freshS) 0 xs)
      = Except.ok (.arr l)
    rw [hl]
    rfl
  | undefined => exact ⟨[], rfl⟩
  | null => exact ⟨[], rfl⟩
  | bool b => exact ⟨[], rfl⟩
  | num n => exact ⟨[], rfl⟩
  | str s => exact ⟨[], rfl⟩
  | obj o => exact ⟨[], rfl⟩

/-- C1, counterexample.  The claim "prep_time ... integers >= 0,
including for recipes with negative fields" fails: `parseInt(-5) || 0`
keeps `-5`, so the normalized `prep_time` of a recipe with
`prep_time: -5` is `-5`. -/
theorem C1_counterexample_negative_prep_time :
    (normalizeRecipeData (fun _ => "x") (fun _ => "x")
        (.obj [("prep_time", JVal.num (-5))])).toOption.map
        (fun out => jsGetD out "prep_time")
      = some (.num (-5)) ∧ ¬ (0 : Int) ≤ -5 :=
  ⟨rfl, by decide⟩

/-- C1, amended.  For every recipe object whose ingredient/step array
elements are not `null`/`undefined` and whose numeric fields do not
parse to negative integers, `normalizeRecipeData` succeeds and returns
a record whose `ingredients` and `steps` are sequences (never absent),
whose `prep_time` and `cook_time` are integers >= 0, whose `servings`
is an integer >= 1, and whose `name` — when the input name is a string
or absent — is a non-empty string (defaulted when absent or empty). -/
theorem C1_normalizeRecipeData_bounds (freshI freshS : Nat → String)
    (kvs : List (String × JVal))
    (hIng : ∀ xs, jsGetD (.obj kvs) "ingredients" = .arr xs →
      ∀ x ∈ xs, x ≠ .null ∧ x ≠ .undefined)
    (hSteps : ∀ xs, jsGetD (.obj kvs) "steps" = .arr xs →
      ∀ x ∈ xs, x ≠ .null ∧ x ≠ .undefined)
    (hPrep : 0 ≤ (jsParseInt (jsGetD (.obj kvs) "prep_time")).getD 0)
    (hCook : 0 ≤ (jsParseInt (jsGetD (.obj kvs) "cook_time")).getD 0)
    (hServ : 0 ≤ (jsParseInt (jsGetD (.obj kvs) "servings")).getD 0) :
    ∃ out, normalizeRecipeData freshI freshS (.obj kvs) = .ok out ∧
      (∃ li, jsGetD out "ingredients" = .arr li) ∧
      (∃ ls, jsGetD out "steps" = .arr ls) ∧
      (∃ p : Int, jsGetD out "prep_time" = .num p ∧ 0 ≤ p) ∧
      (∃ c : Int, jsGetD out "cook_time" = .num c ∧ 0 ≤ c) ∧
      (∃ n : Int, jsGetD out "servings" = .num n ∧ 1 ≤ n) ∧
      (((∃ nm : String, jsGetD (.obj kvs) "name" = .str nm) ∨
          jsGetD (.obj kvs) "name" = .undefined) →
        ∃ t : String, jsGetD out "name" = .str t ∧ t ≠ "") := by
  obtain ⟨li, hingr⟩ := normIngredientsField_ok freshI (.obj kvs) hIng
  obtain ⟨ls, hstps⟩ := normStepsField_ok freshS (.obj kvs) hSteps
  have hnorm : normalizeRecipeData freshI freshS (.obj kvs) =
      .ok (.obj (jsObjSetMany kvs
        [("ingredients", .arr li),
         ("steps", .arr ls),
         ("image_url", jsOr (jsGetD (.obj kvs) "image_url")
           (jsOr (jsGetD (.obj kvs) "image") (.str ""))),
         ("prep_time",
           .num ((jsParseInt (jsGetD (.obj kvs) "prep_time")).getD 0)),
         ("cook_time",
           .num ((jsParseInt (jsGetD (.obj kvs) "cook_time")).getD 0)),
         ("servings",
           .num (if (jsParseInt (jsGetD (.obj kvs) "servings")).getD 0 = 0
                 then 1
                 else (jsParseInt (jsGetD (.obj kvs) "servings")).getD 0)),
         ("average_rating",
           .num ((jsParseFloat (jsGetD (.obj kvs) "average_rating")).getD 0)),
         ("review_count",
           .num ((jsParseInt (jsGetD (.obj kvs) "review_count")).getD 0)),
         ("name", jsOr (jsGetD (.obj kvs) "name") (.str "Untitled Recipe")),
         ("description", jsOr (jsGetD (.obj kvs) "description") (.str "")),
         ("category", jsOr (jsGetD (.obj kvs) "category") (.str "makanan")),
         ("difficulty",
           jsOr (jsGetD (.obj kvs) "difficulty") (.str "mudah"))])) := by
    unfold normalizeRecipeData
    rw [if_neg (by simp [jsTruthy])]
    rw [hingr]
    simp only [exceptBind_ok]
    rw [hstps]
    simp only [exceptBind_ok]
    rfl
  obtain ⟨hLi, hLs, hLp, hLc, hLsv, hLn⟩ := normOut_getD kvs
    (.arr li) (.arr ls)
    (jsOr (jsGetD (.obj kvs) "image_url")
      (jsOr (jsGetD (.obj kvs) "image") (.str "")))
    (.num ((jsParseInt (jsGetD (.obj kvs) "prep_time")).getD 0))
    (.num ((jsParseInt (jsGetD (.obj kvs) "cook_time")).getD 0))
    (.num (if (jsParseInt (jsGetD (.obj kvs) "servings")).getD 0 = 0 then 1
           else (jsParseInt (jsGetD (.obj kvs) "servings")).getD 0))
    (.num ((jsParseFloat (jsGetD (.obj kvs) "average_rating")).getD 0))
    (.num ((jsParseInt (jsGetD (.obj kvs) "review_count")).getD 0))
    (jsOr (jsGetD (.obj kvs) "name") (.str "Untitled Recipe"))
    (jsOr (jsGetD (.obj kvs) "description") (.str ""))
    (jsOr (jsGetD (.obj kvs) "category") (.str "makanan"))
    (jsOr (jsGetD (.obj kvs) "difficulty") (.str "mudah"))
  refine ⟨_, hnorm, ⟨li, hLi⟩, ⟨ls, hLs⟩, ⟨_, hLp, hPrep⟩, ⟨_, hLc, hCook⟩,
    ⟨_, hLsv, ?_⟩, ?_⟩
  · by_cases hz : (jsParseInt (jsGetD (.obj kvs) "servings")).getD 0 = 0
    · rw [if_pos hz]
    · rw [if_neg hz]
      omega
  · intro hname
    rcases hname with ⟨nm, hnm⟩ | hnm
    · by_cases hne : nm = ""
      · refine ⟨"Untitled Recipe", ?_, by decide⟩
        rw [hLn, hnm, hne]
        rfl
      · refine ⟨nm, ?_, hne⟩
        rw [hLn, hnm]
        simp [jsOr, jsTruthy, hne]
    · refine ⟨"Untitled Recipe", ?_, by decide⟩
      rw [hLn, hnm]
      rfl

/-- C1 witness: a recipe with name `"Soto"` and string `prep_time`
`"10"` normalizes to sequences and in-range numeric fields. -/
theorem C1_normalizeRecipeData_bounds_witness :
    ∃ out, normalizeRecipeData (fun _ => "x") (fun _ => "x")
        (.obj [("name", JVal.str "Soto"), ("prep_time", JVal.str "10")])
        = .ok out ∧
      (∃ li, jsGetD out "ingredients" = .arr li) ∧
      (∃ ls, jsGetD out "steps" = .arr ls) ∧
      (∃ p : Int, jsGetD out "prep_time" = .num p ∧ 0 ≤ p) ∧
      (∃ c : Int, jsGetD out "cook_time" = .num c ∧ 0 ≤ c) ∧
      (∃ n : Int, jsGetD out "servings" = .num n ∧ 1 ≤ n) ∧
      (((∃ nm : String, jsGetD (.obj [("name", JVal.str "Soto"),
            ("prep_time", JVal.str "10")]) "name" = .str nm) ∨
          jsGetD (.obj [("name", JVal.str "Soto"),
            ("prep_time", JVal.str "10")]) "name" = .undefined) →
        ∃ t : String, jsGetD out "name" = .str t ∧ t ≠ "") :=
  C1_normalizeRecipeData_bounds (fun _ => "x") (fun _ => "x")
    [("name", JVal.str "Soto"), ("prep_time", JVal.str "10")]
    (fun xs h => by simp [jsGetD, fieldLookup] at h)
    (fun xs h => by simp [jsGetD, fieldLookup] at h)
    (by decide) (by decide) (by decide)
